import Mathlib

/-!
Backpropagation: a two-layer sigmoid network (`backprogation.go`)

A shallow embedding of `sigmoid`, `sigmoidPrime`, `newNetwork`, `train`,
`backpropagate` and `predict`, together with the part of the dense-matrix
library (`gonum.org/v1/gonum/mat`) that these functions call.

Modelling conventions.

* `float64` is idealised as an arbitrary field `R`; `math.Exp` is the parameter
  `mathExp : R → R`.  Rounding, overflow, NaN and infinities are not modelled;
  the underflow of `math.Exp` to 0 is a matter of the parameter (`expWithUnderflow`).
* The neuron counts are Go `int`s.  `NewDense` computes the slice length in
  64-bit arithmetic (`goInt`) and allocates through `makeSlice`, which fails
  beyond `maxLen`, the largest slice the machine can provide; `train` takes
  `maxLen` as a parameter.
* A `*mat.Dense` that may be `nil` is an `Option (Dense R)`.  A `Dense R` carries
  its dimensions and an entry function; as in the library, a matrix has either
  both dimensions zero (the empty matrix `new(mat.Dense)`) or both positive.
* A Go call either returns normally, returns an `error` value, or panics.  The
  last two are the constructors of `Fault`; computations live in `Except Fault`.
* `rand.Float64()` is the stream `draws : Nat → R`, indexed by call number.
* `sumAlongAxis` is called by `backpropagate` but its body is not part of the
  source file; `backpropagate` and `train` take it as a parameter, and
  `sumAlongAxis` below is its model after the specification.
-/

set_option linter.unusedSectionVars false

namespace Backprop

/-! ## Outcomes -/

/-- Run-time panics of the matrix library that the program can trigger. -/
inductive Panic where
  | shape
  | zeroLength
  | negativeDimension
  | rowAccess
  | colAccess
  | nilPointer
  | makeslice
  | shortSlice
  deriving DecidableEq, Repr

/-- A non-normal end of a Go call: an `error` value handed back to the caller,
or a panic unwinding the stack. -/
inductive Fault where
  | error (msg : String)
  | panic (p : Panic)
  deriving DecidableEq, Repr

/-! ## Dense matrices -/

/-- The value of a `mat.Dense`: dimensions and entries.  `wf` is the library
invariant that a matrix is either empty (0 × 0) or has positive dimensions. -/
structure Dense (R : Type) where
  rows : Nat
  cols : Nat
  elem : Nat → Nat → R
  wf : rows = 0 ↔ cols = 0

variable {R : Type} [Field R]

/-- The matrix `new(mat.Dense)`: empty, to be sized by its first use as a receiver. -/
def Dense.empty : Dense R := ⟨0, 0, fun _ _ => 0, Iff.rfl⟩

/-- Receiver preparation `reuseAsNonZeroed(r, c)` followed by filling the
receiver with the entries `f`: panics on a zero dimension, sizes an empty
receiver, and panics when a sized receiver has other dimensions. -/
def Dense.reuseAsNonZeroed (recv : Dense R) (r c : Nat) (f : Nat → Nat → R) :
    Except Fault (Dense R) :=
  if h : r = 0 ∨ c = 0 then .error (.panic .zeroLength)
  else if recv.rows = 0 then
    .ok ⟨r, c, f, by constructor <;> intro h0 <;> exact absurd h0 (by tauto)⟩
  else if r ≠ recv.rows ∨ c ≠ recv.cols then .error (.panic .shape)
  else .ok ⟨r, c, f, by constructor <;> intro h0 <;> exact absurd h0 (by tauto)⟩

/-- The value of a Go `int` expression: the integer reduced to the 64-bit
two's-complement range, as the machine arithmetic does on overflow. -/
def goInt (z : Int) : Int := (z + 2 ^ 63) % 2 ^ 64 - 2 ^ 63

/-- The call `make([]float64, len)`: the length of the new slice.  It panics
when `len` is negative or exceeds `maxLen`, the largest slice the run-time
system can provide on the machine at hand. -/
def makeSlice (maxLen : Nat) (len : Int) : Except Fault Nat :=
  if len < 0 ∨ (maxLen : Int) < len then .error (.panic .makeslice) else .ok len.toNat

/-- The constructor `mat.NewDense(r, c, nil)` for `int` arguments `r`, `c`: it
panics unless both are positive, then allocates `make([]float64, r*c)` with the
product computed in `int`, and returns the zero matrix.  When the product
overflows to a length that can be allocated, the library returns a matrix
whose slice is shorter than `r*c`; no `Dense R` stands for such a value, every
later access to it panics, and the embedding ends the call there as `shortSlice`. -/
def NewDense (maxLen : Nat) (r c : Int) : Except Fault (Dense R) :=
  if h : r ≤ 0 ∨ c ≤ 0 then
    if r = 0 ∨ c = 0 then .error (.panic .zeroLength) else .error (.panic .negativeDimension)
  else
    match makeSlice maxLen (goInt (r * c)) with
    | .error f => .error f
    | .ok len =>
      if (len : Int) = r * c then
        .ok ⟨r.toNat, c.toNat, fun _ _ => 0, by
          constructor <;> intro h0 <;> exfalso <;> omega⟩
      else .error (.panic .shortSlice)

/-- The method `At(i, j)`: the entry, with the library's bounds checks. -/
def Dense.At (m : Dense R) (i j : Nat) : Except Fault R :=
  if m.rows ≤ i then .error (.panic .rowAccess)
  else if m.cols ≤ j then .error (.panic .colAccess)
  else .ok (m.elem i j)

/-- The method `T()`: the transposed view. -/
def Dense.T (m : Dense R) : Dense R := ⟨m.cols, m.rows, fun i j => m.elem j i, m.wf.symm⟩

/-- The method `recv.Mul(a, b)`: the matrix product. -/
def Dense.Mul (recv a b : Dense R) : Except Fault (Dense R) :=
  if a.cols ≠ b.rows then .error (.panic .shape)
  else recv.reuseAsNonZeroed a.rows b.cols
    (fun i j => ∑ k ∈ Finset.range a.cols, a.elem i k * b.elem k j)

/-- The first panic raised while `fn` is called on the entries of `a` in row-major order. -/
def firstFault (fn : Nat → Nat → R → Except Fault R) (a : Dense R) : Option Fault :=
  (List.range a.rows).findSome? fun i =>
    (List.range a.cols).findSome? fun j =>
      match fn i j (a.elem i j) with
      | .error f => some f
      | .ok _ => none

/-- The method `recv.Apply(fn, a)`: `fn` applied to every entry of `a`, given
its row and column.  The closure may panic (a bias lookup out of range). -/
def Dense.Apply (recv : Dense R) (fn : Nat → Nat → R → Except Fault R) (a : Dense R) :
    Except Fault (Dense R) :=
  match recv.reuseAsNonZeroed a.rows a.cols
      (fun i j => match fn i j (a.elem i j) with
        | .ok v => v
        | .error _ => 0) with
  | .error f => .error f
  | .ok m =>
    match firstFault fn a with
    | some f => .error f
    | none => .ok m

/-- The method `recv.Sub(a, b)`: the element-wise difference. -/
def Dense.Sub (recv a b : Dense R) : Except Fault (Dense R) :=
  if a.rows ≠ b.rows ∨ a.cols ≠ b.cols then .error (.panic .shape)
  else recv.reuseAsNonZeroed a.rows a.cols (fun i j => a.elem i j - b.elem i j)

/-- The method `recv.Add(a, b)`: the element-wise sum. -/
def Dense.Add (recv a b : Dense R) : Except Fault (Dense R) :=
  if a.rows ≠ b.rows ∨ a.cols ≠ b.cols then .error (.panic .shape)
  else recv.reuseAsNonZeroed a.rows a.cols (fun i j => a.elem i j + b.elem i j)

/-- The method `recv.MulElem(a, b)`: the element-wise product. -/
def Dense.MulElem (recv a b : Dense R) : Except Fault (Dense R) :=
  if a.rows ≠ b.rows ∨ a.cols ≠ b.cols then .error (.panic .shape)
  else recv.reuseAsNonZeroed a.rows a.cols (fun i j => a.elem i j * b.elem i j)

/-- The method `recv.Scale(f, a)`: every entry multiplied by `f`. -/
def Dense.Scale (recv : Dense R) (f : R) (a : Dense R) : Except Fault (Dense R) :=
  recv.reuseAsNonZeroed a.rows a.cols (fun i j => f * a.elem i j)

/-! ## Activation functions -/

/-- The function `sigmoid`: `1.0 / (1.0 + math.Exp(-x))`. -/
def sigmoid (mathExp : R → R) (x : R) : R := 1 / (1 + mathExp (-x))

/-- The function `sigmoidPrime`: `sigmoid(x) * (1.0 - sigmoid(x))`. -/
def sigmoidPrime (mathExp : R → R) (x : R) : R :=
  sigmoid mathExp x * (1 - sigmoid mathExp x)

/-! ## The network -/

/-- The struct `neuralNetConfig`.  The four counts are Go `int`s: in every
configuration the program can hold they lie within the 64-bit range. -/
structure neuralNetConfig (R : Type) where
  inputNeurons : Int
  outputNeurons : Int
  hiddenNeurons : Int
  numEpochs : Int
  learningRate : R

/-- The struct `neuralNet`: the configuration and four matrix pointers, `nil` until trained. -/
structure neuralNet (R : Type) where
  config : neuralNetConfig R
  wHidden : Option (Dense R)
  bHidden : Option (Dense R)
  wOut : Option (Dense R)
  bOut : Option (Dense R)

/-- The function `newNetwork`: only the configuration is set. -/
def newNetwork (config : neuralNetConfig R) : neuralNet R :=
  { config := config, wHidden := none, bHidden := none, wOut := none, bOut := none }

/-- The matrices `backpropagate` works on: the four parameters and `output`. -/
structure Params (R : Type) where
  wHidden : Dense R
  bHidden : Dense R
  wOut : Dense R
  bOut : Dense R
  output : Dense R

/-- The closure `applySigmoid`. -/
def applySigmoid (mathExp : R → R) (_ _ : Nat) (v : R) : Except Fault R :=
  .ok (sigmoid mathExp v)

/-- The closure `applySigmoidPrime`. -/
def applySigmoidPrime (mathExp : R → R) (_ _ : Nat) (v : R) : Except Fault R :=
  .ok (sigmoidPrime mathExp v)

/-- The closures `addBHidden` and `addBOut`: `v + b.At(0, col)`. -/
def addBias (b : Dense R) (_ col : Nat) (v : R) : Except Fault R :=
  match b.At 0 col with
  | .error f => .error f
  | .ok w => .ok (v + w)

/-- One pass of the loop body of `backpropagate`: forward pass, error,
gradients and the four updates, in source order. -/
def epoch (mathExp : R → R) (sumAlongAxis : Int → Dense R → Except Fault (Dense R))
    (learningRate : R) (x y : Dense R) (p : Params R) : Except Fault (Params R) := do
  let hiddenLayerInput ← Dense.Mul Dense.empty x p.wHidden
  let hiddenLayerInput ← Dense.Apply hiddenLayerInput (addBias p.bHidden) hiddenLayerInput
  let hiddenLayerActivations ← Dense.Apply Dense.empty (applySigmoid mathExp) hiddenLayerInput
  let outputLayerInput ← Dense.Mul Dense.empty hiddenLayerActivations p.wOut
  let outputLayerInput ← Dense.Apply outputLayerInput (addBias p.bOut) outputLayerInput
  let output ← Dense.Apply p.output (applySigmoid mathExp) outputLayerInput
  let networkError ← Dense.Sub Dense.empty y output
  let slopeOutputLayer ← Dense.Apply Dense.empty (applySigmoidPrime mathExp) output
  let slopeHiddenLayer ← Dense.Apply Dense.empty (applySigmoidPrime mathExp) hiddenLayerActivations
  let dOutput ← Dense.MulElem Dense.empty networkError slopeOutputLayer
  let errorAtHiddenLayer ← Dense.Mul Dense.empty dOutput p.wOut.T
  let dHiddenLayer ← Dense.MulElem Dense.empty errorAtHiddenLayer slopeHiddenLayer
  let wOutAdj ← Dense.Mul Dense.empty hiddenLayerActivations.T dOutput
  let wOutAdj ← Dense.Scale wOutAdj learningRate wOutAdj
  let wOut ← Dense.Add p.wOut p.wOut wOutAdj
  let bOutAdj ← sumAlongAxis 0 dOutput
  let bOutAdj ← Dense.Scale bOutAdj learningRate bOutAdj
  let bOut ← Dense.Add p.bOut p.bOut bOutAdj
  let wHiddenAdj ← Dense.Mul Dense.empty x.T dHiddenLayer
  let wHiddenAdj ← Dense.Scale wHiddenAdj learningRate wHiddenAdj
  let wHidden ← Dense.Add p.wHidden p.wHidden wHiddenAdj
  let bHiddenAdj ← sumAlongAxis 0 dHiddenLayer
  let bHiddenAdj ← Dense.Scale bHiddenAdj learningRate bHiddenAdj
  let bHidden ← Dense.Add p.bHidden p.bHidden bHiddenAdj
  pure { wHidden := wHidden, bHidden := bHidden, wOut := wOut, bOut := bOut, output := output }

/-- The loop `for i := 0; i < numEpochs; i++` with `k` iterations left:
each pass starts from the matrices the previous pass left. -/
def epochs (mathExp : R → R) (sumAlongAxis : Int → Dense R → Except Fault (Dense R))
    (learningRate : R) (x y : Dense R) : Nat → Params R → Except Fault (Params R)
  | 0, p => .ok p
  | k + 1, p =>
    match epoch mathExp sumAlongAxis learningRate x y p with
    | .error f => .error f
    | .ok q => epochs mathExp sumAlongAxis learningRate x y k q

/-- The method `backpropagate`: the loop runs `numEpochs` times, not at all
when `numEpochs ≤ 0`; the result is the final content of the five matrices. -/
def backpropagate (mathExp : R → R) (sumAlongAxis : Int → Dense R → Except Fault (Dense R))
    (nn : neuralNet R) (x y : Dense R) (p : Params R) : Except Fault (Params R) :=
  epochs mathExp sumAlongAxis nn.config.learningRate x y nn.config.numEpochs.toNat p

/-- The loop filling a raw data slice from the random generator: entry
`(i, j)` of a row-major matrix is call number `offset + i * cols + j`. -/
def fillRaw (draws : Nat → R) (offset : Nat) (m : Dense R) : Dense R :=
  { m with elem := fun i j => draws (offset + i * m.cols + j) }

/-- The freshly allocated and randomly filled matrices of `train`, with the
empty `output`; the four slices are filled one after the other. -/
def initParams (maxLen : Nat) (draws : Nat → R) (config : neuralNetConfig R) :
    Except Fault (Params R) := do
  let wHidden ← NewDense maxLen config.inputNeurons config.hiddenNeurons
  let bHidden ← NewDense maxLen 1 config.hiddenNeurons
  let wOut ← NewDense maxLen config.hiddenNeurons config.outputNeurons
  let bOut ← NewDense maxLen 1 config.outputNeurons
  let o1 := wHidden.rows * wHidden.cols
  let o2 := o1 + bHidden.rows * bHidden.cols
  let o3 := o2 + wOut.rows * wOut.cols
  pure { wHidden := fillRaw draws 0 wHidden, bHidden := fillRaw draws o1 bHidden,
         wOut := fillRaw draws o2 wOut, bOut := fillRaw draws o3 bOut,
         output := Dense.empty }

/-- The method `train`: the network after the call and how the call ended
(`none` for a `nil` error).  The fields are assigned only after
`backpropagate` returned `nil`. -/
def train (mathExp : R → R) (sumAlongAxis : Int → Dense R → Except Fault (Dense R))
    (maxLen : Nat) (draws : Nat → R) (nn : neuralNet R) (x y : Dense R) :
    neuralNet R × Option Fault :=
  match initParams maxLen draws nn.config with
  | .error f => (nn, some f)
  | .ok p0 =>
    match backpropagate mathExp sumAlongAxis nn x y p0 with
    | .error f => (nn, some f)
    | .ok p =>
      ({ nn with wHidden := some p.wHidden, bHidden := some p.bHidden,
                 wOut := some p.wOut, bOut := some p.bOut }, none)

/-- The message of the first guard of `predict`. -/
def errWeightsEmpty : Fault := .error "the supplied weights are empty"

/-- The message of the second guard of `predict`. -/
def errBiasesEmpty : Fault := .error "the supplied biases are empty"

/-- The forward pass of `predict` on matrices known to be present. -/
def predictForward (mathExp : R → R) (wHidden bHidden wOut bOut x : Dense R) :
    Except Fault (Dense R) := do
  let hiddenLayerInput ← Dense.Mul Dense.empty x wHidden
  let hiddenLayerInput ← Dense.Apply hiddenLayerInput (addBias bHidden) hiddenLayerInput
  let hiddenLayerActivations ← Dense.Apply Dense.empty (applySigmoid mathExp) hiddenLayerInput
  let outputLayerInput ← Dense.Mul Dense.empty hiddenLayerActivations wOut
  let outputLayerInput ← Dense.Apply outputLayerInput (addBias bOut) outputLayerInput
  Dense.Apply Dense.empty (applySigmoid mathExp) outputLayerInput

/-- The method `predict`: the network after the call and the returned pair
(a matrix, or a fault and no matrix). -/
def predict (mathExp : R → R) (nn : neuralNet R) (x : Dense R) :
    neuralNet R × Except Fault (Dense R) :=
  if nn.wHidden.isNone || nn.wOut.isNone then (nn, .error errWeightsEmpty)
  else if nn.bHidden.isNone || nn.bOut.isNone then (nn, .error errBiasesEmpty)
  else
    match nn.wHidden, nn.bHidden, nn.wOut, nn.bOut with
    | some wHidden, some bHidden, some wOut, some bOut =>
      (nn, predictForward mathExp wHidden bHidden wOut bOut x)
    | _, _, _, _ => (nn, .error (.panic .nilPointer))

/-- Modelled from the spec: the helper `sumAlongAxis`, whose body is missing
from the source file.  For axis 0 it reduces the matrix to a single row of
column sums of the same width, and it fails with a structural error when
the matrix has zero rows or zero columns. -/
def sumAlongAxis (axis : Int) (m : Dense R) : Except Fault (Dense R) :=
  if h : m.rows = 0 ∨ m.cols = 0 then .error (.error "cannot sum an empty matrix")
  else if axis = 0 then
    .ok ⟨1, m.cols, fun _ j => ∑ i ∈ Finset.range m.rows, m.elem i j, by
      constructor <;> intro h0 <;> exfalso <;> omega⟩
  else .error (.error "invalid axis")

/-! ## Example data -/

/-- The `r × c` matrix with every entry `v`, for positive `r` and `c`. -/
def constDense (r c : Nat) (hr : r ≠ 0) (hc : c ≠ 0) (v : R) : Dense R :=
  ⟨r, c, fun _ _ => v, by constructor <;> intro h0 <;> contradiction⟩

/-- A configuration with one neuron per layer. -/
def unitConfig (numEpochs : Int) (learningRate : R) : neuralNetConfig R :=
  { inputNeurons := 1, outputNeurons := 1, hiddenNeurons := 1,
    numEpochs := numEpochs, learningRate := learningRate }

/-- A network whose four matrices are present, each `1 × 1` with entry `v`. -/
def unitNetwork (numEpochs : Int) (v : R) : neuralNet R :=
  { config := unitConfig numEpochs v,
    wHidden := some (constDense 1 1 (by decide) (by decide) v),
    bHidden := some (constDense 1 1 (by decide) (by decide) v),
    wOut := some (constDense 1 1 (by decide) (by decide) v),
    bOut := some (constDense 1 1 (by decide) (by decide) v) }

/-- A stand-in for `sumAlongAxis` that reports an error on every call, to
exercise the error path of `train`. -/
def sumAlongAxisFailing (_ : Int) (_ : Dense R) : Except Fault (Dense R) :=
  .error (.error "invalid axis, must be 0 or 1")

/-! ## Reachable network states -/

/-- The states a network created by `newNetwork c` can be in after any
finite sequence of `train` and `predict` calls, whatever their arguments,
random draws and outcomes. -/
inductive Reachable (mathExp : R → R) (sumAxis : Int → Dense R → Except Fault (Dense R))
    (c : neuralNetConfig R) : neuralNet R → Prop where
  | init : Reachable mathExp sumAxis c (newNetwork c)
  | train {nn : neuralNet R} (maxLen : Nat) (draws : Nat → R) (x y : Dense R) :
      Reachable mathExp sumAxis c nn →
      Reachable mathExp sumAxis c (train mathExp sumAxis maxLen draws nn x y).1
  | predict {nn : neuralNet R} (x : Dense R) :
      Reachable mathExp sumAxis c nn →
      Reachable mathExp sumAxis c (predict mathExp nn x).1

/-- The four parameter matrices are all present or all absent. -/
def AllOrNothing (nn : neuralNet R) : Prop :=
  (nn.wHidden.isSome ∧ nn.bHidden.isSome ∧ nn.wOut.isSome ∧ nn.bOut.isSome) ∨
  (nn.wHidden = none ∧ nn.bHidden = none ∧ nn.wOut = none ∧ nn.bOut = none)

/-! ## Shapes, the helper contract and the bias steps -/

/-- A receiver is usable for an `r × c` result when it is empty or already `r × c`. -/
def Dense.Fits (recv : Dense R) (r c : Nat) : Prop :=
  recv.rows = 0 ∨ (recv.rows = r ∧ recv.cols = c)

/-- The shapes `backpropagate` expects: parameters `inp × hid`, `1 × hid`,
`hid × out`, `1 × out`, and an `output` receiver that is empty or `n × out`. -/
def Params.Shaped (p : Params R) (n inp hid out : Nat) : Prop :=
  (p.wHidden.rows = inp ∧ p.wHidden.cols = hid) ∧ (p.bHidden.rows = 1 ∧ p.bHidden.cols = hid) ∧
  (p.wOut.rows = hid ∧ p.wOut.cols = out) ∧ (p.bOut.rows = 1 ∧ p.bOut.cols = out) ∧
  p.output.Fits n out

/-- The two bias updates of an epoch, the only steps that depend on the
helper, given the gradients and the already updated weight matrices. -/
def biasSteps (sumAxis : Int → Dense R → Except Fault (Dense R)) (learningRate : R)
    (dOutput dHiddenLayer : Dense R) (p : Params R) (wHidden wOut output : Dense R) :
    Except Fault (Params R) := do
  let bOutAdj ← sumAxis 0 dOutput
  let bOutAdj ← Dense.Scale bOutAdj learningRate bOutAdj
  let bOut ← Dense.Add p.bOut p.bOut bOutAdj
  let bHiddenAdj ← sumAxis 0 dHiddenLayer
  let bHiddenAdj ← Dense.Scale bHiddenAdj learningRate bHiddenAdj
  let bHidden ← Dense.Add p.bHidden p.bHidden bHiddenAdj
  pure { wHidden := wHidden, bHidden := bHidden, wOut := wOut, bOut := bOut, output := output }

/-- What the program relies on from the helper for axis 0: it hands back an
error value, or a single row as wide as its argument. -/
def SumAxisSpec (sumAxis : Int → Dense R → Except Fault (Dense R)) : Prop :=
  ∀ d : Dense R, (∃ e, sumAxis 0 d = .error (.error e)) ∨
    (∃ m, sumAxis 0 d = .ok m ∧ m.rows = 1 ∧ m.cols = d.cols)

/-- The parameter matrices of a network are present with the shapes its configuration asks for. -/
def HasConfiguredShapes (nn : neuralNet R) : Prop :=
  ∃ wH bH wO bO : Dense R,
    nn.wHidden = some wH ∧ nn.bHidden = some bH ∧ nn.wOut = some wO ∧ nn.bOut = some bO ∧
    ((wH.rows : Int) = nn.config.inputNeurons ∧ (wH.cols : Int) = nn.config.hiddenNeurons) ∧
    (bH.rows = 1 ∧ (bH.cols : Int) = nn.config.hiddenNeurons) ∧
    ((wO.rows : Int) = nn.config.hiddenNeurons ∧ (wO.cols : Int) = nn.config.outputNeurons) ∧
    (bO.rows = 1 ∧ (bO.cols : Int) = nn.config.outputNeurons)

/-! ## The two halves of an epoch -/

/-- The matrices an epoch has computed when it reaches its update steps. -/
structure Gradients (R : Type) where
  hiddenLayerActivations : Dense R
  output : Dense R
  networkError : Dense R
  dOutput : Dense R
  dHiddenLayer : Dense R

/-- The first half of the loop body of `backpropagate`: forward pass, error
and the two gradient matrices, in source order. -/
def gradients (mathExp : R → R) (x y : Dense R) (p : Params R) : Except Fault (Gradients R) := do
  let hiddenLayerInput ← Dense.Mul Dense.empty x p.wHidden
  let hiddenLayerInput ← Dense.Apply hiddenLayerInput (addBias p.bHidden) hiddenLayerInput
  let hiddenLayerActivations ← Dense.Apply Dense.empty (applySigmoid mathExp) hiddenLayerInput
  let outputLayerInput ← Dense.Mul Dense.empty hiddenLayerActivations p.wOut
  let outputLayerInput ← Dense.Apply outputLayerInput (addBias p.bOut) outputLayerInput
  let output ← Dense.Apply p.output (applySigmoid mathExp) outputLayerInput
  let networkError ← Dense.Sub Dense.empty y output
  let slopeOutputLayer ← Dense.Apply Dense.empty (applySigmoidPrime mathExp) output
  let slopeHiddenLayer ← Dense.Apply Dense.empty (applySigmoidPrime mathExp) hiddenLayerActivations
  let dOutput ← Dense.MulElem Dense.empty networkError slopeOutputLayer
  let errorAtHiddenLayer ← Dense.Mul Dense.empty dOutput p.wOut.T
  let dHiddenLayer ← Dense.MulElem Dense.empty errorAtHiddenLayer slopeHiddenLayer
  pure { hiddenLayerActivations := hiddenLayerActivations, output := output,
         networkError := networkError, dOutput := dOutput, dHiddenLayer := dHiddenLayer }

/-- The second half of the loop body of `backpropagate`: the four updates, in source order. -/
def updates (sumAlongAxis : Int → Dense R → Except Fault (Dense R)) (learningRate : R)
    (x : Dense R) (p : Params R) (g : Gradients R) : Except Fault (Params R) := do
  let wOutAdj ← Dense.Mul Dense.empty g.hiddenLayerActivations.T g.dOutput
  let wOutAdj ← Dense.Scale wOutAdj learningRate wOutAdj
  let wOut ← Dense.Add p.wOut p.wOut wOutAdj
  let bOutAdj ← sumAlongAxis 0 g.dOutput
  let bOutAdj ← Dense.Scale bOutAdj learningRate bOutAdj
  let bOut ← Dense.Add p.bOut p.bOut bOutAdj
  let wHiddenAdj ← Dense.Mul Dense.empty x.T g.dHiddenLayer
  let wHiddenAdj ← Dense.Scale wHiddenAdj learningRate wHiddenAdj
  let wHidden ← Dense.Add p.wHidden p.wHidden wHiddenAdj
  let bHiddenAdj ← sumAlongAxis 0 g.dHiddenLayer
  let bHiddenAdj ← Dense.Scale bHiddenAdj learningRate bHiddenAdj
  let bHidden ← Dense.Add p.bHidden p.bHidden bHiddenAdj
  pure { wHidden := wHidden, bHidden := bHidden, wOut := wOut, bOut := bOut, output := g.output }

/-- The single-epoch step applied `k` times in sequence, in the words of the
specification: nothing for `k = 0`, and for `k + 1` one more step applied to
what the first `k` steps produced; a failing step ends the sequence. -/
def epochIterate (mathExp : R → R) (sumAlongAxis : Int → Dense R → Except Fault (Dense R))
    (learningRate : R) (x y : Dense R) : Nat → Params R → Except Fault (Params R)
  | 0, p => .ok p
  | k + 1, p =>
    match epochIterate mathExp sumAlongAxis learningRate x y k p with
    | .error f => .error f
    | .ok q => epoch mathExp sumAlongAxis learningRate x y q

/-- Two matrices are equal as matrices: same dimensions and same entries within them. -/
def Dense.Same (a b : Dense R) : Prop :=
  a.rows = b.rows ∧ a.cols = b.cols ∧ ∀ i j, i < a.rows → j < a.cols → a.elem i j = b.elem i j

/-- Two parameter sets hold the same four matrices. -/
def Params.Same (p q : Params R) : Prop :=
  p.wHidden.Same q.wHidden ∧ p.bHidden.Same q.bHidden ∧ p.wOut.Same q.wOut ∧ p.bOut.Same q.bOut

/-- The column-sum contract of the helper for axis 0 on a non-empty matrix:
a single row of the argument's width whose entry `j` is the sum of column `j`
over all rows. -/
def ColumnSums (sumAxis : Int → Dense R → Except Fault (Dense R)) : Prop :=
  ∀ d : Dense R, d.rows ≠ 0 → ∃ m, sumAxis 0 d = .ok m ∧ m.rows = 1 ∧ m.cols = d.cols ∧
    ∀ j, j < d.cols → m.elem 0 j = ∑ i ∈ Finset.range d.rows, d.elem i j

/-- Entry `(i, j)` of the hidden activations of the forward pass, as a formula in the parameters. -/
def hiddenActAt (mathExp : R → R) (x : Dense R) (p : Params R) (i j : Nat) : R :=
  sigmoid mathExp ((∑ m ∈ Finset.range x.cols, x.elem i m * p.wHidden.elem m j)
    + p.bHidden.elem 0 j)

/-- Entry `(i, k)` of the output of the forward pass, as a formula in the parameters. -/
def outputAt (mathExp : R → R) (x : Dense R) (p : Params R) (i k : Nat) : R :=
  sigmoid mathExp ((∑ j ∈ Finset.range p.wOut.rows, hiddenActAt mathExp x p i j * p.wOut.elem j k)
    + p.bOut.elem 0 k)

/-- The target equals the forward-pass output of the parameters, entry by entry. -/
def PerfectFit (mathExp : R → R) (x y : Dense R) (p : Params R) : Prop :=
  ∀ i k, i < y.rows → k < y.cols → y.elem i k = outputAt mathExp x p i k

/-- The fault is a panic, not an error value returned to the caller. -/
def Fault.IsPanic (f : Fault) : Prop := ∃ pn, f = .panic pn

/-- Parameters for the examples: four `1 × 1` matrices of entry `v` and an empty `output`. -/
def unitParams (v : R) : Params R :=
  { wHidden := constDense 1 1 (by decide) (by decide) v,
    bHidden := constDense 1 1 (by decide) (by decide) v,
    wOut := constDense 1 1 (by decide) (by decide) v,
    bOut := constDense 1 1 (by decide) (by decide) v,
    output := Dense.empty }

/-- The `n × out` target that equals the forward-pass output of the parameters. -/
def fittedTarget (mathExp : R → R) (x : Dense R) (p : Params R) (n out : Nat)
    (hn : n ≠ 0) (hout : out ≠ 0) : Dense R :=
  ⟨n, out, outputAt mathExp x p, by constructor <;> intro h0 <;> contradiction⟩

/-- The matrices of a `train` call on `n` samples fit the machine: the
allocation limit is an `int`, and the parameter matrices and the `n`-row
intermediate matrices have at most `maxLen` entries each. -/
def FitsMemory (maxLen : Nat) (c : neuralNetConfig R) (n : Nat) : Prop :=
  (maxLen : Int) < 2 ^ 63 ∧
  c.inputNeurons * c.hiddenNeurons ≤ maxLen ∧ c.hiddenNeurons * c.outputNeurons ≤ maxLen ∧
  (n : Int) * c.hiddenNeurons ≤ maxLen ∧ (n : Int) * c.outputNeurons ≤ maxLen

theorem train_fault_state (mathExp : R → R)
    (sumAxis : Int → Dense R → Except Fault (Dense R)) (maxLen : Nat) (draws : Nat → R)
    (nn : neuralNet R) (x y : Dense R) (f : Fault)
    (h : (train mathExp sumAxis maxLen draws nn x y).2 = some f) :
    (train mathExp sumAxis maxLen draws nn x y).1 = nn := by
  unfold train at h ⊢
  cases hi : initParams maxLen draws nn.config with
  | error g => simp
  | ok p0 =>
    cases hb : backpropagate mathExp sumAxis nn x y p0 with
    | error g => simp [hb]
    | ok p => simp [hi, hb] at h

theorem train_ok_state (mathExp : R → R)
    (sumAxis : Int → Dense R → Except Fault (Dense R)) (maxLen : Nat) (draws : Nat → R)
    (nn : neuralNet R) (x y : Dense R)
    (h : (train mathExp sumAxis maxLen draws nn x y).2 = none) :
    ∃ p0 p, initParams maxLen draws nn.config = .ok p0 ∧
      backpropagate mathExp sumAxis nn x y p0 = .ok p ∧
      (train mathExp sumAxis maxLen draws nn x y).1 =
        { nn with wHidden := some p.wHidden, bHidden := some p.bHidden,
                  wOut := some p.wOut, bOut := some p.bOut } := by
  unfold train at h ⊢
  cases hi : initParams maxLen draws nn.config with
  | error g => simp [hi] at h
  | ok p0 =>
    cases hb : backpropagate mathExp sumAxis nn x y p0 with
    | error g => simp [hi, hb] at h
    | ok p => exact ⟨p0, p, rfl, hb, by simp [hb]⟩

theorem predict_state (mathExp : R → R) (nn : neuralNet R) (x : Dense R) :
    (predict mathExp nn x).1 = nn := by
  unfold predict
  split_ifs
  · rfl
  · rfl
  · split <;> rfl

/-- In exact arithmetic over an ordered field, with a positive exponential,
`sigmoid` lies strictly between 0 and 1.  (Rounded `float64` arithmetic is not
covered: there the quotient can round to exactly 0 or 1.) -/
theorem sigmoid_pos_lt_one {K : Type} [LinearOrderedField K] (mathExp : K → K)
    (hexp : ∀ x, 0 < mathExp x) (x : K) :
    0 < sigmoid mathExp x ∧ sigmoid mathExp x < 1 := by
  have h := hexp (-x)
  unfold sigmoid
  constructor
  · exact one_div_pos.mpr (by linarith)
  · rw [div_lt_one (by linarith)]
    linarith

/-! ## The matrix operations on well-shaped arguments -/

theorem Dense.cols_ne_zero (m : Dense R) (h : m.rows ≠ 0) : m.cols ≠ 0 :=
  fun hc => h (m.wf.mpr hc)

theorem Dense.rows_ne_zero (m : Dense R) (h : m.cols ≠ 0) : m.rows ≠ 0 :=
  fun hr => h (m.wf.mp hr)

theorem Dense.fits_empty (r c : Nat) : (Dense.empty : Dense R).Fits r c := Or.inl rfl

theorem Dense.fits_self (m : Dense R) : m.Fits m.rows m.cols := Or.inr ⟨rfl, rfl⟩

theorem Dense.reuseAsNonZeroed_ok (recv : Dense R) (r c : Nat) (f : Nat → Nat → R)
    (hr : r ≠ 0) (hc : c ≠ 0) (hfit : recv.Fits r c) :
    ∃ m, recv.reuseAsNonZeroed r c f = .ok m ∧ m.rows = r ∧ m.cols = c ∧ m.elem = f := by
  unfold Dense.reuseAsNonZeroed
  have h1 : ¬ (r = 0 ∨ c = 0) := by tauto
  rw [dif_neg h1]
  by_cases h2 : recv.rows = 0
  · rw [if_pos h2]
    exact ⟨_, rfl, rfl, rfl, rfl⟩
  · rw [if_neg h2]
    have h3 : ¬ (r ≠ recv.rows ∨ c ≠ recv.cols) := by
      rcases hfit with h | ⟨h, h'⟩
      · exact absurd h h2
      · simp [h, h']
    rw [if_neg h3]
    exact ⟨_, rfl, rfl, rfl, rfl⟩

theorem Dense.Mul_ok (recv a b : Dense R) (hab : a.cols = b.rows) (ha : a.rows ≠ 0)
    (hb : b.cols ≠ 0) (hfit : recv.Fits a.rows b.cols) :
    ∃ m, Dense.Mul recv a b = .ok m ∧ m.rows = a.rows ∧ m.cols = b.cols ∧
      m.elem = fun i j => ∑ k ∈ Finset.range a.cols, a.elem i k * b.elem k j := by
  unfold Dense.Mul
  rw [if_neg (by simpa using hab)]
  exact Dense.reuseAsNonZeroed_ok recv _ _ _ ha hb hfit

theorem Dense.Sub_ok (recv a b : Dense R) (hr : a.rows = b.rows) (hc : a.cols = b.cols)
    (ha : a.rows ≠ 0) (hfit : recv.Fits a.rows a.cols) :
    ∃ m, Dense.Sub recv a b = .ok m ∧ m.rows = a.rows ∧ m.cols = a.cols ∧
      m.elem = fun i j => a.elem i j - b.elem i j := by
  unfold Dense.Sub
  rw [if_neg (by simp [hr, hc])]
  exact Dense.reuseAsNonZeroed_ok recv _ _ _ ha (a.cols_ne_zero ha) hfit

theorem Dense.Add_ok (recv a b : Dense R) (hr : a.rows = b.rows) (hc : a.cols = b.cols)
    (ha : a.rows ≠ 0) (hfit : recv.Fits a.rows a.cols) :
    ∃ m, Dense.Add recv a b = .ok m ∧ m.rows = a.rows ∧ m.cols = a.cols ∧
      m.elem = fun i j => a.elem i j + b.elem i j := by
  unfold Dense.Add
  rw [if_neg (by simp [hr, hc])]
  exact Dense.reuseAsNonZeroed_ok recv _ _ _ ha (a.cols_ne_zero ha) hfit

theorem Dense.MulElem_ok (recv a b : Dense R) (hr : a.rows = b.rows) (hc : a.cols = b.cols)
    (ha : a.rows ≠ 0) (hfit : recv.Fits a.rows a.cols) :
    ∃ m, Dense.MulElem recv a b = .ok m ∧ m.rows = a.rows ∧ m.cols = a.cols ∧
      m.elem = fun i j => a.elem i j * b.elem i j := by
  unfold Dense.MulElem
  rw [if_neg (by simp [hr, hc])]
  exact Dense.reuseAsNonZeroed_ok recv _ _ _ ha (a.cols_ne_zero ha) hfit

theorem Dense.Scale_ok (recv : Dense R) (f : R) (a : Dense R)
    (ha : a.rows ≠ 0) (hfit : recv.Fits a.rows a.cols) :
    ∃ m, Dense.Scale recv f a = .ok m ∧ m.rows = a.rows ∧ m.cols = a.cols ∧
      m.elem = fun i j => f * a.elem i j := by
  unfold Dense.Scale
  exact Dense.reuseAsNonZeroed_ok recv _ _ _ ha (a.cols_ne_zero ha) hfit

theorem firstFault_none (fn : Nat → Nat → R → Except Fault R) (a : Dense R)
    (hfn : ∀ i, i < a.rows → ∀ j, j < a.cols → ∃ v, fn i j (a.elem i j) = .ok v) :
    firstFault fn a = none := by
  unfold firstFault
  rw [List.findSome?_eq_none_iff]
  intro i hi
  rw [List.findSome?_eq_none_iff]
  intro j hj
  obtain ⟨v, hv⟩ := hfn i (List.mem_range.mp hi) j (List.mem_range.mp hj)
  rw [hv]

theorem Dense.Apply_ok (recv : Dense R) (fn : Nat → Nat → R → Except Fault R) (a : Dense R)
    (ha : a.rows ≠ 0) (hfit : recv.Fits a.rows a.cols)
    (hfn : ∀ i, i < a.rows → ∀ j, j < a.cols → ∃ v, fn i j (a.elem i j) = .ok v) :
    ∃ m, Dense.Apply recv fn a = .ok m ∧ m.rows = a.rows ∧ m.cols = a.cols ∧
      m.elem = fun i j => match fn i j (a.elem i j) with
        | .ok v => v
        | .error _ => 0 := by
  obtain ⟨m, hm, h1, h2, h3⟩ := Dense.reuseAsNonZeroed_ok recv a.rows a.cols
    (fun i j => match fn i j (a.elem i j) with
      | .ok v => v
      | .error _ => 0) ha (a.cols_ne_zero ha) hfit
  refine ⟨m, ?_, h1, h2, h3⟩
  unfold Dense.Apply
  rw [hm, firstFault_none fn a hfn]

theorem Dense.Apply_sigmoid_ok (mathExp : R → R) (recv a : Dense R)
    (ha : a.rows ≠ 0) (hfit : recv.Fits a.rows a.cols) :
    ∃ m, Dense.Apply recv (applySigmoid mathExp) a = .ok m ∧ m.rows = a.rows ∧
      m.cols = a.cols ∧ m.elem = fun i j => sigmoid mathExp (a.elem i j) := by
  obtain ⟨m, hm, h1, h2, h3⟩ := Dense.Apply_ok recv (applySigmoid mathExp) a ha hfit
    (fun i _ j _ => ⟨_, rfl⟩)
  exact ⟨m, hm, h1, h2, by rw [h3]; rfl⟩

theorem Dense.Apply_sigmoidPrime_ok (mathExp : R → R) (recv a : Dense R)
    (ha : a.rows ≠ 0) (hfit : recv.Fits a.rows a.cols) :
    ∃ m, Dense.Apply recv (applySigmoidPrime mathExp) a = .ok m ∧ m.rows = a.rows ∧
      m.cols = a.cols ∧ m.elem = fun i j => sigmoidPrime mathExp (a.elem i j) := by
  obtain ⟨m, hm, h1, h2, h3⟩ := Dense.Apply_ok recv (applySigmoidPrime mathExp) a ha hfit
    (fun i _ j _ => ⟨_, rfl⟩)
  exact ⟨m, hm, h1, h2, by rw [h3]; rfl⟩

theorem addBias_ok (b : Dense R) (i col : Nat) (v : R) (hb : b.rows ≠ 0) (hcol : col < b.cols) :
    addBias b i col v = .ok (v + b.elem 0 col) := by
  unfold addBias Dense.At
  rw [if_neg (by omega), if_neg (by omega)]

theorem Dense.Apply_addBias_ok (recv b a : Dense R)
    (ha : a.rows ≠ 0) (hfit : recv.Fits a.rows a.cols) (hb : b.rows ≠ 0)
    (hcols : a.cols ≤ b.cols) :
    ∃ m, Dense.Apply recv (addBias b) a = .ok m ∧ m.rows = a.rows ∧ m.cols = a.cols ∧
      ∀ i j, j < a.cols → m.elem i j = a.elem i j + b.elem 0 j := by
  obtain ⟨m, hm, h1, h2, h3⟩ := Dense.Apply_ok recv (addBias b) a ha hfit
    (fun i _ j hj => ⟨_, addBias_ok b i j _ hb (by omega)⟩)
  refine ⟨m, hm, h1, h2, ?_⟩
  intro i j hj
  rw [h3]
  simp only [addBias_ok b i j _ hb (show j < b.cols by omega)]

/-! ## The forward pass of `predict` -/

theorem predictForward_ok (mathExp : R → R) (wH bH wO bO X : Dense R) (n inp hid out : Nat)
    (hwH : wH.rows = inp ∧ wH.cols = hid) (hbH : bH.rows = 1 ∧ bH.cols = hid)
    (hwO : wO.rows = hid ∧ wO.cols = out) (hbO : bO.rows = 1 ∧ bO.cols = out)
    (hX : X.rows = n ∧ X.cols = inp) :
    ∃ o, predictForward mathExp wH bH wO bO X = .ok o ∧ o.rows = n ∧ o.cols = out ∧
      ∀ i k, k < out → o.elem i k =
        sigmoid mathExp (bO.elem 0 k + ∑ j ∈ Finset.range hid, wO.elem j k *
          sigmoid mathExp (bH.elem 0 j + ∑ m ∈ Finset.range inp, X.elem i m * wH.elem m j)) := by
  obtain ⟨hwH1, hwH2⟩ := hwH
  obtain ⟨hbH1, hbH2⟩ := hbH
  obtain ⟨hwO1, hwO2⟩ := hwO
  obtain ⟨hbO1, hbO2⟩ := hbO
  obtain ⟨hX1, hX2⟩ := hX
  have hhid : hid ≠ 0 := by
    have := bH.cols_ne_zero (by omega)
    omega
  have hout : out ≠ 0 := by
    have := bO.cols_ne_zero (by omega)
    omega
  have hinp : inp ≠ 0 := by
    have := wH.rows_ne_zero (by omega)
    omega
  have hn : n ≠ 0 := by
    have := X.rows_ne_zero (by omega)
    omega
  obtain ⟨m1, e1, r1, c1, f1⟩ := Dense.Mul_ok Dense.empty X wH (by omega) (by omega) (by omega)
    (Dense.fits_empty _ _)
  obtain ⟨m2, e2, r2, c2, f2⟩ := Dense.Apply_addBias_ok m1 bH m1 (by omega) m1.fits_self
    (by omega) (by omega)
  obtain ⟨m3, e3, r3, c3, f3⟩ := Dense.Apply_sigmoid_ok mathExp Dense.empty m2 (by omega)
    (Dense.fits_empty _ _)
  obtain ⟨m4, e4, r4, c4, f4⟩ := Dense.Mul_ok Dense.empty m3 wO (by omega) (by omega) (by omega)
    (Dense.fits_empty _ _)
  obtain ⟨m5, e5, r5, c5, f5⟩ := Dense.Apply_addBias_ok m4 bO m4 (by omega) m4.fits_self
    (by omega) (by omega)
  obtain ⟨m6, e6, r6, c6, f6⟩ := Dense.Apply_sigmoid_ok mathExp Dense.empty m5 (by omega)
    (Dense.fits_empty _ _)
  refine ⟨m6, ?_, by omega, by omega, ?_⟩
  · simp [predictForward, bind, Except.bind, e1, e2, e3, e4, e5, e6]
  · intro i k hk
    rw [f6]
    simp only
    rw [f5 i k (by omega), f4]
    simp only
    rw [add_comm, c3, c2, c1, hwH2]
    congr 2
    apply Finset.sum_congr rfl
    intro j hj
    have hj' : j < hid := Finset.mem_range.mp hj
    rw [f3]
    simp only
    rw [f2 i j (by omega), f1]
    simp only
    rw [mul_comm, add_comm, hX2]

/-! ## One epoch on well-shaped matrices -/

/-- On well-shaped arguments every matrix operation of an epoch succeeds;
the epoch is determined by the activations, the output, the two gradients
and the two updated weight matrices described here, followed by the bias steps. -/
theorem epoch_eq (mathExp : R → R) (sumAxis : Int → Dense R → Except Fault (Dense R))
    (lr : R) (x y : Dense R) (p : Params R) (n inp hid out : Nat)
    (hp : p.Shaped n inp hid out) (hx : x.rows = n ∧ x.cols = inp)
    (hy : y.rows = n ∧ y.cols = out) :
    ∃ hAct o dOut dHid wO wH : Dense R,
      (hAct.rows = n ∧ hAct.cols = hid ∧ ∀ i j, j < hid → hAct.elem i j =
        sigmoid mathExp ((∑ m ∈ Finset.range inp, x.elem i m * p.wHidden.elem m j)
          + p.bHidden.elem 0 j)) ∧
      (o.rows = n ∧ o.cols = out ∧ ∀ i k, k < out → o.elem i k =
        sigmoid mathExp ((∑ j ∈ Finset.range hid, hAct.elem i j * p.wOut.elem j k)
          + p.bOut.elem 0 k)) ∧
      (dOut.rows = n ∧ dOut.cols = out ∧ dOut.elem = fun i k =>
        (y.elem i k - o.elem i k) * sigmoidPrime mathExp (o.elem i k)) ∧
      (dHid.rows = n ∧ dHid.cols = hid ∧ dHid.elem = fun i j =>
        (∑ k ∈ Finset.range out, dOut.elem i k * p.wOut.elem j k)
          * sigmoidPrime mathExp (hAct.elem i j)) ∧
      (wO.rows = hid ∧ wO.cols = out ∧ wO.elem = fun j k =>
        p.wOut.elem j k + lr * ∑ i ∈ Finset.range n, hAct.elem i j * dOut.elem i k) ∧
      (wH.rows = inp ∧ wH.cols = hid ∧ wH.elem = fun m j =>
        p.wHidden.elem m j + lr * ∑ i ∈ Finset.range n, x.elem i m * dHid.elem i j) ∧
      epoch mathExp sumAxis lr x y p = biasSteps sumAxis lr dOut dHid p wH wO o := by
  obtain ⟨⟨hwH1, hwH2⟩, ⟨hbH1, hbH2⟩, ⟨hwO1, hwO2⟩, ⟨hbO1, hbO2⟩, hout⟩ := hp
  obtain ⟨hx1, hx2⟩ := hx
  obtain ⟨hy1, hy2⟩ := hy
  have hhid : hid ≠ 0 := by
    have := p.bHidden.cols_ne_zero (by omega)
    omega
  have hout0 : out ≠ 0 := by
    have := p.bOut.cols_ne_zero (by omega)
    omega
  have hinp : inp ≠ 0 := by
    have := p.wHidden.rows_ne_zero (by omega)
    omega
  have hn : n ≠ 0 := by
    have := x.rows_ne_zero (by omega)
    omega
  obtain ⟨m1, e1, r1, c1, f1⟩ := Dense.Mul_ok Dense.empty x p.wHidden (by omega) (by omega)
    (by omega) (Dense.fits_empty _ _)
  obtain ⟨m2, e2, r2, c2, f2⟩ := Dense.Apply_addBias_ok m1 p.bHidden m1 (by omega) m1.fits_self
    (by omega) (by omega)
  obtain ⟨m3, e3, r3, c3, f3⟩ := Dense.Apply_sigmoid_ok mathExp Dense.empty m2 (by omega)
    (Dense.fits_empty _ _)
  obtain ⟨m4, e4, r4, c4, f4⟩ := Dense.Mul_ok Dense.empty m3 p.wOut (by omega) (by omega)
    (by omega) (Dense.fits_empty _ _)
  obtain ⟨m5, e5, r5, c5, f5⟩ := Dense.Apply_addBias_ok m4 p.bOut m4 (by omega) m4.fits_self
    (by omega) (by omega)
  obtain ⟨m6, e6, r6, c6, f6⟩ := Dense.Apply_sigmoid_ok mathExp p.output m5 (by omega)
    (by rcases hout with h | ⟨h, h'⟩
        · exact Or.inl h
        · exact Or.inr ⟨by omega, by omega⟩)
  obtain ⟨m7, e7, r7, c7, f7⟩ := Dense.Sub_ok Dense.empty y m6 (by omega) (by omega) (by omega)
    (Dense.fits_empty _ _)
  obtain ⟨m8, e8, r8, c8, f8⟩ := Dense.Apply_sigmoidPrime_ok mathExp Dense.empty m6 (by omega)
    (Dense.fits_empty _ _)
  obtain ⟨m9, e9, r9, c9, f9⟩ := Dense.Apply_sigmoidPrime_ok mathExp Dense.empty m3 (by omega)
    (Dense.fits_empty _ _)
  obtain ⟨m10, e10, r10, c10, f10⟩ := Dense.MulElem_ok Dense.empty m7 m8 (by omega) (by omega)
    (by omega) (Dense.fits_empty _ _)
  obtain ⟨m11, e11, r11, c11, f11⟩ := Dense.Mul_ok Dense.empty m10 p.wOut.T
    (by show m10.cols = p.wOut.cols; omega) (by omega)
    (by show p.wOut.rows ≠ 0; omega) (Dense.fits_empty _ _)
  obtain ⟨m12, e12, r12, c12, f12⟩ := Dense.MulElem_ok Dense.empty m11 m9 (by omega)
    (by rw [c11]; show p.wOut.rows = m9.cols; omega) (by omega) (Dense.fits_empty _ _)
  obtain ⟨m13, e13, r13, c13, f13⟩ := Dense.Mul_ok Dense.empty m3.T m10
    (by show m3.rows = m10.rows; omega) (by show m3.cols ≠ 0; omega) (by omega)
    (Dense.fits_empty _ _)
  obtain ⟨m14, e14, r14, c14, f14⟩ := Dense.Scale_ok m13 lr m13
    (by rw [r13]; show m3.cols ≠ 0; omega) m13.fits_self
  obtain ⟨m15, e15, r15, c15, f15⟩ := Dense.Add_ok p.wOut p.wOut m14
    (by rw [r14, r13]; show p.wOut.rows = m3.cols; omega) (by omega) (by omega) p.wOut.fits_self
  obtain ⟨m16, e16, r16, c16, f16⟩ := Dense.Mul_ok Dense.empty x.T m12
    (by show x.rows = m12.rows; omega) (by show x.cols ≠ 0; omega)
    (by rw [c12, c11]; show p.wOut.rows ≠ 0; omega) (Dense.fits_empty _ _)
  obtain ⟨m17, e17, r17, c17, f17⟩ := Dense.Scale_ok m16 lr m16
    (by rw [r16]; show x.cols ≠ 0; omega) m16.fits_self
  obtain ⟨m18, e18, r18, c18, f18⟩ := Dense.Add_ok p.wHidden p.wHidden m17
    (by rw [r17, r16]; show p.wHidden.rows = x.cols; omega)
    (by rw [c17, c16, c12, c11]; show p.wHidden.cols = p.wOut.rows; omega) (by omega)
    p.wHidden.fits_self
  refine ⟨m3, m6, m10, m12, m15, m18, ⟨by omega, by omega, ?_⟩, ⟨by omega, by omega, ?_⟩,
    ⟨by omega, by omega, ?_⟩, ⟨by omega, ?_, ?_⟩, ⟨by omega, by omega, ?_⟩,
    ⟨by omega, by omega, ?_⟩, ?_⟩
  · intro i j hj
    rw [f3]
    simp only
    rw [f2 i j (by omega), f1, hx2]
  · intro i k hk
    rw [f6]
    simp only
    rw [f5 i k (by omega), f4, c3, c2, c1, hwH2]
  · rw [f10, f7, f8]
  · rw [c12, c11]
    show p.wOut.rows = hid
    omega
  · rw [f12, f11, f9, c10, c7, hy2]
    rfl
  · rw [f15, f14, f13]
    have : m3.T.cols = n := by show m3.rows = n; omega
    rw [this]
    rfl
  · rw [f18, f17, f16]
    have : x.T.cols = n := by show x.rows = n; omega
    rw [this]
    rfl
  · simp only [epoch, biasSteps, bind, Except.bind, e1, e2, e3, e4, e5, e6, e7, e8, e9, e10,
      e11, e12, e13, e14, e15, e16, e17, e18]

theorem sumAlongAxis_spec : SumAxisSpec (sumAlongAxis : Int → Dense R → Except Fault (Dense R)) := by
  intro d
  unfold sumAlongAxis
  by_cases h : d.rows = 0 ∨ d.cols = 0
  · left
    exact ⟨_, by rw [dif_pos h]⟩
  · right
    rw [dif_neg h, if_pos rfl]
    exact ⟨_, rfl, rfl, rfl⟩

/-- One bias update `b.Add(b, adj.Scale(lr, adj))` with a single-row adjustment of the right width. -/
theorem biasUpdate_ok (lr : R) (b adj : Dense R) (w : Nat) (hb : b.rows = 1 ∧ b.cols = w)
    (hadj : adj.rows = 1 ∧ adj.cols = w) :
    ∃ s r, Dense.Scale adj lr adj = .ok s ∧ Dense.Add b b s = .ok r ∧ r.rows = 1 ∧ r.cols = w ∧
      r.elem = fun i j => b.elem i j + lr * adj.elem i j := by
  obtain ⟨s, es, rs, cs, fs⟩ := Dense.Scale_ok adj lr adj (by omega) adj.fits_self
  obtain ⟨r, er, rr, cr, fr⟩ := Dense.Add_ok b b s (by omega) (by omega) (by omega) b.fits_self
  exact ⟨s, r, es, er, by omega, by omega, by rw [fr, fs]⟩

/-- The bias steps either fail with an error value of the helper or succeed
with both bias rows updated by the scaled helper results. -/
theorem biasSteps_cases (sumAxis : Int → Dense R → Except Fault (Dense R)) (lr : R)
    (dOut dHid : Dense R) (p : Params R) (wH wO o : Dense R) (hid out : Nat)
    (hS : SumAxisSpec sumAxis)
    (hbH : p.bHidden.rows = 1 ∧ p.bHidden.cols = hid) (hbO : p.bOut.rows = 1 ∧ p.bOut.cols = out)
    (hdO : dOut.cols = out) (hdH : dHid.cols = hid) :
    (∃ e, biasSteps sumAxis lr dOut dHid p wH wO o = .error (.error e) ∧
      (sumAxis 0 dOut = .error (.error e) ∨ sumAxis 0 dHid = .error (.error e))) ∨
    (∃ s1 s2 bO bH, sumAxis 0 dOut = .ok s1 ∧ sumAxis 0 dHid = .ok s2 ∧
      (s1.rows = 1 ∧ s1.cols = out) ∧ (s2.rows = 1 ∧ s2.cols = hid) ∧
      (bO.rows = 1 ∧ bO.cols = out ∧ bO.elem = fun i k => p.bOut.elem i k + lr * s1.elem i k) ∧
      (bH.rows = 1 ∧ bH.cols = hid ∧ bH.elem = fun i j => p.bHidden.elem i j + lr * s2.elem i j) ∧
      biasSteps sumAxis lr dOut dHid p wH wO o =
        .ok { wHidden := wH, bHidden := bH, wOut := wO, bOut := bO, output := o }) := by
  rcases hS dOut with ⟨e, he⟩ | ⟨s1, h1, r1, c1⟩
  · left
    exact ⟨e, by simp [biasSteps, bind, Except.bind, he], Or.inl he⟩
  · obtain ⟨t1, bO, et1, ebO, rbO, cbO, fbO⟩ := biasUpdate_ok lr p.bOut s1 out hbO
      ⟨r1, by omega⟩
    rcases hS dHid with ⟨e, he⟩ | ⟨s2, h2, r2, c2⟩
    · left
      exact ⟨e, by simp [biasSteps, bind, Except.bind, h1, et1, ebO, he], Or.inr he⟩
    · obtain ⟨t2, bH, et2, ebH, rbH, cbH, fbH⟩ := biasUpdate_ok lr p.bHidden s2 hid hbH
        ⟨r2, by omega⟩
      right
      refine ⟨s1, s2, bO, bH, h1, h2, ⟨r1, by omega⟩, ⟨r2, by omega⟩, ⟨rbO, cbO, fbO⟩,
        ⟨rbH, cbH, fbH⟩, ?_⟩
      simp [biasSteps, bind, Except.bind, pure, Except.pure, h1, et1, ebO, h2, et2, ebH]

/-- An epoch on well-shaped arguments ends with an error value of the
helper or with well-shaped parameters. -/
theorem epoch_cases (mathExp : R → R) (sumAxis : Int → Dense R → Except Fault (Dense R))
    (lr : R) (x y : Dense R) (p : Params R) (n inp hid out : Nat)
    (hS : SumAxisSpec sumAxis)
    (hp : p.Shaped n inp hid out) (hx : x.rows = n ∧ x.cols = inp)
    (hy : y.rows = n ∧ y.cols = out) :
    (∃ e, epoch mathExp sumAxis lr x y p = .error (.error e)) ∨
    (∃ q, epoch mathExp sumAxis lr x y p = .ok q ∧ q.Shaped n inp hid out) := by
  obtain ⟨hAct, o, dOut, dHid, wO, wH, _, ⟨ro, co, _⟩, ⟨_, cdO, _⟩, ⟨_, cdH, _⟩,
    ⟨rwO, cwO, _⟩, ⟨rwH, cwH, _⟩, heq⟩ := epoch_eq mathExp sumAxis lr x y p n inp hid out hp hx hy
  rcases biasSteps_cases sumAxis lr dOut dHid p wH wO o hid out hS hp.2.1 hp.2.2.2.1 cdO cdH with
    ⟨e, he, _⟩ | ⟨s1, s2, bO, bH, _, _, _, _, ⟨rbO, cbO, _⟩, ⟨rbH, cbH, _⟩, hok⟩
  · left
    exact ⟨e, by rw [heq, he]⟩
  · right
    exact ⟨_, by rw [heq, hok], ⟨rwH, cwH⟩, ⟨rbH, cbH⟩, ⟨rwO, cwO⟩, ⟨rbO, cbO⟩, Or.inr ⟨ro, co⟩⟩

theorem epochs_cases (mathExp : R → R) (sumAxis : Int → Dense R → Except Fault (Dense R))
    (lr : R) (x y : Dense R) (n inp hid out : Nat) (hS : SumAxisSpec sumAxis)
    (hx : x.rows = n ∧ x.cols = inp) (hy : y.rows = n ∧ y.cols = out) (k : Nat) :
    ∀ p : Params R, p.Shaped n inp hid out →
      (∃ e, epochs mathExp sumAxis lr x y k p = .error (.error e)) ∨
      (∃ q, epochs mathExp sumAxis lr x y k p = .ok q ∧ q.Shaped n inp hid out) := by
  induction k with
  | zero => intro p hp; exact Or.inr ⟨p, rfl, hp⟩
  | succ k ih =>
    intro p hp
    rcases epoch_cases mathExp sumAxis lr x y p n inp hid out hS hp hx hy with
      ⟨e, he⟩ | ⟨q, hq, hqs⟩
    · left
      exact ⟨e, by simp [epochs, he]⟩
    · rcases ih q hqs with ⟨e, he⟩ | ⟨q', hq', hqs'⟩
      · left
        exact ⟨e, by simp [epochs, hq, he]⟩
      · right
        exact ⟨q', by simp [epochs, hq, hq'], hqs'⟩

theorem goInt_eq (z : Int) (h0 : 0 ≤ z) (h1 : z < 2 ^ 63) : goInt z = z := by
  unfold goInt
  omega

/-- An allocation that fits: positive dimensions whose product is within the limit. -/
theorem NewDense_ok (maxLen : Nat) (r c : Int) (hr : 0 < r) (hc : 0 < c)
    (hmax : (maxLen : Int) < 2 ^ 63) (hlen : r * c ≤ maxLen) :
    ∃ m : Dense R, NewDense maxLen r c = .ok m ∧ m.rows = r.toNat ∧ m.cols = c.toNat ∧
      m.elem = fun _ _ => 0 := by
  have hprod : 0 ≤ r * c := le_of_lt (mul_pos hr hc)
  have hg : goInt (r * c) = r * c := goInt_eq _ hprod (lt_of_le_of_lt hlen hmax)
  have h1 : ¬ (r ≤ 0 ∨ c ≤ 0) := by omega
  have h2 : ¬ (r * c < 0 ∨ (maxLen : Int) < r * c) := by omega
  have h3 : (((r * c).toNat : Nat) : Int) = r * c := Int.toNat_of_nonneg hprod
  unfold NewDense
  rw [dif_neg h1]
  simp only [makeSlice, hg, if_neg h2, h3, if_true]
  exact ⟨_, rfl, rfl, rfl, rfl⟩

/-- With positive neuron counts and parameter matrices within the allocation
limit, the initial matrices of `train` are allocated with the configured
shapes and filled with draws. -/
theorem initParams_ok (maxLen : Nat) (draws : Nat → R) (c : neuralNetConfig R) (n : Nat)
    (hpos : 0 < c.inputNeurons ∧ 0 < c.hiddenNeurons ∧ 0 < c.outputNeurons)
    (hsize : (maxLen : Int) < 2 ^ 63 ∧ c.inputNeurons * c.hiddenNeurons ≤ maxLen ∧
      c.hiddenNeurons * c.outputNeurons ≤ maxLen) :
    ∃ p0, initParams maxLen draws c = .ok p0 ∧
      p0.Shaped n c.inputNeurons.toNat c.hiddenNeurons.toNat c.outputNeurons.toNat ∧
      (∀ i j, ∃ k, p0.wHidden.elem i j = draws k) ∧ (∀ i j, ∃ k, p0.bHidden.elem i j = draws k) ∧
      (∀ i j, ∃ k, p0.wOut.elem i j = draws k) ∧ (∀ i j, ∃ k, p0.bOut.elem i j = draws k) := by
  obtain ⟨h1, h2, h3⟩ := hpos
  obtain ⟨hmax, hs1, hs2⟩ := hsize
  have hhid : 1 * c.hiddenNeurons ≤ maxLen := by
    have : c.hiddenNeurons ≤ c.inputNeurons * c.hiddenNeurons :=
      le_mul_of_one_le_left (le_of_lt h2) (by omega)
    omega
  have hout : 1 * c.outputNeurons ≤ maxLen := by
    have : c.outputNeurons ≤ c.hiddenNeurons * c.outputNeurons :=
      le_mul_of_one_le_left (le_of_lt h3) (by omega)
    omega
  obtain ⟨m1, e1, r1, c1, _⟩ := NewDense_ok (R := R) maxLen c.inputNeurons c.hiddenNeurons h1 h2
    hmax hs1
  obtain ⟨m2, e2, r2, c2, _⟩ := NewDense_ok (R := R) maxLen 1 c.hiddenNeurons (by omega) h2
    hmax hhid
  obtain ⟨m3, e3, r3, c3, _⟩ := NewDense_ok (R := R) maxLen c.hiddenNeurons c.outputNeurons h2 h3
    hmax hs2
  obtain ⟨m4, e4, r4, c4, _⟩ := NewDense_ok (R := R) maxLen 1 c.outputNeurons (by omega) h3
    hmax hout
  simp only [initParams, e1, e2, e3, e4, bind, Except.bind, pure, Except.pure]
  exact ⟨_, rfl, ⟨⟨r1, c1⟩, ⟨r2, c2⟩, ⟨r3, c3⟩, ⟨r4, c4⟩, Or.inl rfl⟩,
    fun _ _ => ⟨_, rfl⟩, fun _ _ => ⟨_, rfl⟩, fun _ _ => ⟨_, rfl⟩, fun _ _ => ⟨_, rfl⟩⟩

/-- When the target has another row count than the input, the forward pass
of the first epoch succeeds and the subtraction `Y - output` panics. -/
theorem epoch_row_mismatch (mathExp : R → R) (sumAxis : Int → Dense R → Except Fault (Dense R))
    (lr : R) (x y : Dense R) (p : Params R) (n inp hid out : Nat)
    (hp : p.Shaped n inp hid out) (hx : x.rows = n ∧ x.cols = inp) (hy : y.rows ≠ n) :
    epoch mathExp sumAxis lr x y p = .error (.panic .shape) := by
  obtain ⟨⟨hwH1, hwH2⟩, ⟨hbH1, hbH2⟩, ⟨hwO1, hwO2⟩, ⟨hbO1, hbO2⟩, hout⟩ := hp
  obtain ⟨hx1, hx2⟩ := hx
  have hhid : hid ≠ 0 := by
    have := p.bHidden.cols_ne_zero (by omega)
    omega
  have hout0 : out ≠ 0 := by
    have := p.bOut.cols_ne_zero (by omega)
    omega
  have hinp : inp ≠ 0 := by
    have := p.wHidden.rows_ne_zero (by omega)
    omega
  have hn : n ≠ 0 := by
    have := x.rows_ne_zero (by omega)
    omega
  obtain ⟨m1, e1, r1, c1, f1⟩ := Dense.Mul_ok Dense.empty x p.wHidden (by omega) (by omega)
    (by omega) (Dense.fits_empty _ _)
  obtain ⟨m2, e2, r2, c2, f2⟩ := Dense.Apply_addBias_ok m1 p.bHidden m1 (by omega) m1.fits_self
    (by omega) (by omega)
  obtain ⟨m3, e3, r3, c3, f3⟩ := Dense.Apply_sigmoid_ok mathExp Dense.empty m2 (by omega)
    (Dense.fits_empty _ _)
  obtain ⟨m4, e4, r4, c4, f4⟩ := Dense.Mul_ok Dense.empty m3 p.wOut (by omega) (by omega)
    (by omega) (Dense.fits_empty _ _)
  obtain ⟨m5, e5, r5, c5, f5⟩ := Dense.Apply_addBias_ok m4 p.bOut m4 (by omega) m4.fits_self
    (by omega) (by omega)
  obtain ⟨m6, e6, r6, c6, f6⟩ := Dense.Apply_sigmoid_ok mathExp p.output m5 (by omega)
    (by rcases hout with h | ⟨h, h'⟩
        · exact Or.inl h
        · exact Or.inr ⟨by omega, by omega⟩)
  have e7 : Dense.Sub Dense.empty y m6 = .error (.panic .shape) := by
    unfold Dense.Sub
    rw [if_pos (Or.inl (by omega))]
  simp only [epoch, bind, Except.bind, e1, e2, e3, e4, e5, e6, e7]

/-! ## Claims -/

/-- C1: for a network whose four parameter matrices are present with shapes
`in × hid`, `1 × hid`, `hid × out` and `1 × out`, and an `n × in` input, `predict`
succeeds and returns the `n × out` matrix with entry `(i, k)` equal to
`sigmoid(bOut[0,k] + Σ_j wOut[j,k] · sigmoid(bHidden[0,j] + Σ_m X[i,m] · wHidden[m,j]))`. -/
theorem predict_forward_pass (mathExp : R → R) (nn : neuralNet R)
    (wH bH wO bO X : Dense R) (n inp hid out : Nat)
    (hnn : nn.wHidden = some wH ∧ nn.bHidden = some bH ∧ nn.wOut = some wO ∧ nn.bOut = some bO)
    (hwH : wH.rows = inp ∧ wH.cols = hid) (hbH : bH.rows = 1 ∧ bH.cols = hid)
    (hwO : wO.rows = hid ∧ wO.cols = out) (hbO : bO.rows = 1 ∧ bO.cols = out)
    (hX : X.rows = n ∧ X.cols = inp) :
    ∃ o, (predict mathExp nn X).2 = .ok o ∧ o.rows = n ∧ o.cols = out ∧
      ∀ i k, i < n → k < out → o.elem i k =
        sigmoid mathExp (bO.elem 0 k + ∑ j ∈ Finset.range hid, wO.elem j k *
          sigmoid mathExp (bH.elem 0 j + ∑ m ∈ Finset.range inp, X.elem i m * wH.elem m j)) := by
  obtain ⟨o, ho, hr, hc, he⟩ := predictForward_ok mathExp wH bH wO bO X n inp hid out
    hwH hbH hwO hbO hX
  obtain ⟨h1, h2, h3, h4⟩ := hnn
  refine ⟨o, ?_, hr, hc, fun i k _ hk => he i k hk⟩
  simp [predict, h1, h2, h3, h4, ho]

/-- Witness for C1: the network with four `1 × 1` matrices of entry `1/2` on a `2 × 1` input. -/
theorem predict_forward_pass_witness :
    ∃ o, (predict Real.exp (unitNetwork 1 (1 / 2 : ℝ))
        (constDense 2 1 (by decide) (by decide) 3)).2 = .ok o ∧ o.rows = 2 ∧ o.cols = 1 ∧
      ∀ i k, i < 2 → k < 1 → o.elem i k =
        sigmoid Real.exp (1 / 2 + ∑ j ∈ Finset.range 1, 1 / 2 *
          sigmoid Real.exp (1 / 2 + ∑ m ∈ Finset.range 1, 3 * (1 / 2))) :=
  predict_forward_pass Real.exp (unitNetwork 1 (1 / 2 : ℝ))
    (constDense 1 1 (by decide) (by decide) (1 / 2)) (constDense 1 1 (by decide) (by decide) (1 / 2))
    (constDense 1 1 (by decide) (by decide) (1 / 2)) (constDense 1 1 (by decide) (by decide) (1 / 2))
    (constDense 2 1 (by decide) (by decide) 3) 2 1 1 1
    ⟨rfl, rfl, rfl, rfl⟩ ⟨rfl, rfl⟩ ⟨rfl, rfl⟩ ⟨rfl, rfl⟩ ⟨rfl, rfl⟩ ⟨rfl, rfl⟩

/-- C2: when `train` returns an error, the network (its configuration and
its four matrix fields) is exactly what it was before the call, whatever the
prior state and whichever epoch and bias step the helper failed in. -/
theorem train_error_leaves_network (mathExp : R → R)
    (sumAxis : Int → Dense R → Except Fault (Dense R)) (maxLen : Nat) (draws : Nat → R)
    (nn : neuralNet R) (x y : Dense R) (e : String)
    (h : (train mathExp sumAxis maxLen draws nn x y).2 = some (.error e)) :
    (train mathExp sumAxis maxLen draws nn x y).1 = nn :=
  train_fault_state mathExp sumAxis maxLen draws nn x y _ h

/-- Witness for C2: a network holding earlier values, retrained with a helper
that fails at the output-bias step of the first epoch. -/
theorem train_error_leaves_network_witness :
    (train Real.exp sumAlongAxisFailing 4096 (fun _ => 0) (unitNetwork 3 (1 / 2 : ℝ))
        (constDense 2 1 (by decide) (by decide) 1)
        (constDense 2 1 (by decide) (by decide) 1)).2
      = some (.error "invalid axis, must be 0 or 1") ∧
    (train Real.exp sumAlongAxisFailing 4096 (fun _ => 0) (unitNetwork 3 (1 / 2 : ℝ))
        (constDense 2 1 (by decide) (by decide) 1)
        (constDense 2 1 (by decide) (by decide) 1)).1 = unitNetwork 3 (1 / 2 : ℝ) :=
  ⟨rfl, train_error_leaves_network Real.exp sumAlongAxisFailing 4096 (fun _ => 0)
    (unitNetwork 3 (1 / 2 : ℝ)) _ _ "invalid axis, must be 0 or 1" rfl⟩

/-- C4: on a network fresh from `newNetwork`, `predict` returns no matrix and
the error "the supplied weights are empty", for every configuration and input. -/
theorem predict_newNetwork (mathExp : R → R) (c : neuralNetConfig R) (X : Dense R) :
    (predict mathExp (newNetwork c) X).2 = .error (.error "the supplied weights are empty") := by
  simp [predict, newNetwork, errWeightsEmpty]

/-- C5 as stated fails: on a fresh network a bias matrix is absent, yet
`predict` does not report the biases-empty error (it reports weights-empty). -/
theorem predict_biases_absent_counterexample :
    ((newNetwork (unitConfig 1 (1 / 2 : ℝ))).bHidden = none ∨
      (newNetwork (unitConfig 1 (1 / 2 : ℝ))).bOut = none) ∧
    (predict Real.exp (newNetwork (unitConfig 1 (1 / 2 : ℝ)))
        (constDense 1 1 (by decide) (by decide) 1)).2 ≠ .error errBiasesEmpty := by
  refine ⟨Or.inl rfl, ?_⟩
  simp [predict, newNetwork, errWeightsEmpty, errBiasesEmpty]

/-- C5 amended: an absent weight matrix gives the weights-empty error; the
biases-empty error is given when both weight matrices are present and a bias
matrix is absent; the two errors differ. -/
theorem predict_empty_errors (mathExp : R → R) (nn : neuralNet R) (X : Dense R) :
    (nn.wHidden = none ∨ nn.wOut = none →
      (predict mathExp nn X).2 = .error errWeightsEmpty) ∧
    (nn.wHidden ≠ none → nn.wOut ≠ none → nn.bHidden = none ∨ nn.bOut = none →
      (predict mathExp nn X).2 = .error errBiasesEmpty) ∧
    errWeightsEmpty ≠ errBiasesEmpty := by
  refine ⟨?_, ?_, by decide⟩
  · intro h
    have hw : (nn.wHidden.isNone || nn.wOut.isNone) = true := by
      rcases h with h | h <;> simp [h]
    simp [predict, hw]
  · intro h1 h2 h
    have hw : (nn.wHidden.isNone || nn.wOut.isNone) = false := by
      cases hH : nn.wHidden with
      | none => exact absurd hH h1
      | some a =>
        cases hO : nn.wOut with
        | none => exact absurd hO h2
        | some b => rfl
    have hb : (nn.bHidden.isNone || nn.bOut.isNone) = true := by
      rcases h with h | h <;> simp [h]
    simp [predict, hw, hb]

/-- Witness for C5: a network lacking `wOut`, and one with both weight
matrices but no `bOut`. -/
theorem predict_empty_errors_witness :
    (predict Real.exp { unitNetwork 1 (1 / 2 : ℝ) with wOut := none }
        (constDense 1 1 (by decide) (by decide) 1)).2 = .error errWeightsEmpty ∧
    (predict Real.exp { unitNetwork 1 (1 / 2 : ℝ) with bOut := none }
        (constDense 1 1 (by decide) (by decide) 1)).2 = .error errBiasesEmpty :=
  ⟨(predict_empty_errors Real.exp { unitNetwork 1 (1 / 2 : ℝ) with wOut := none }
      (constDense 1 1 (by decide) (by decide) 1)).1 (Or.inr rfl),
   (predict_empty_errors Real.exp { unitNetwork 1 (1 / 2 : ℝ) with bOut := none }
      (constDense 1 1 (by decide) (by decide) 1)).2.1
      (by simp [unitNetwork]) (by simp [unitNetwork]) (Or.inr rfl)⟩

/-- C8: in every state reachable from `newNetwork c` by `train` and `predict`
calls, the four parameter matrices are all present or all absent. -/
theorem reachable_allOrNothing (mathExp : R → R)
    (sumAxis : Int → Dense R → Except Fault (Dense R)) (c : neuralNetConfig R)
    (nn : neuralNet R) (h : Reachable mathExp sumAxis c nn) : AllOrNothing nn := by
  induction h with
  | init => exact Or.inr ⟨rfl, rfl, rfl, rfl⟩
  | @train nn maxLen draws x y _ ih =>
    cases ho : (train mathExp sumAxis maxLen draws nn x y).2 with
    | some f => rw [train_fault_state mathExp sumAxis maxLen draws nn x y f ho]; exact ih
    | none =>
      obtain ⟨p0, p, _, _, hst⟩ := train_ok_state mathExp sumAxis maxLen draws nn x y ho
      rw [hst]
      exact Or.inl ⟨rfl, rfl, rfl, rfl⟩
  | @predict nn x _ ih => rw [predict_state]; exact ih

/-- Witness for C8: the state after one successful `train` call on a fresh network. -/
theorem reachable_allOrNothing_witness :
    Reachable Real.exp sumAlongAxis (unitConfig 2 (1 / 2 : ℝ))
      (train Real.exp sumAlongAxis 4096 (fun _ => 0) (newNetwork (unitConfig 2 (1 / 2 : ℝ)))
        (constDense 2 1 (by decide) (by decide) 1)
        (constDense 2 1 (by decide) (by decide) 1)).1 ∧
    AllOrNothing
      (train Real.exp sumAlongAxis 4096 (fun _ => 0) (newNetwork (unitConfig 2 (1 / 2 : ℝ)))
        (constDense 2 1 (by decide) (by decide) 1)
        (constDense 2 1 (by decide) (by decide) 1)).1 :=
  ⟨Reachable.train _ _ _ _ Reachable.init,
   reachable_allOrNothing Real.exp sumAlongAxis (unitConfig 2 (1 / 2 : ℝ)) _
    (Reachable.train _ _ _ _ Reachable.init)⟩

/-- C9: `predict` leaves the network as it was: configuration and the four
matrix fields are equal before and after, whether the call succeeds or fails. -/
theorem predict_leaves_network (mathExp : R → R) (nn : neuralNet R) (X : Dense R) :
    (predict mathExp nn X).1.config = nn.config ∧
    (predict mathExp nn X).1.wHidden = nn.wHidden ∧
    (predict mathExp nn X).1.bHidden = nn.bHidden ∧
    (predict mathExp nn X).1.wOut = nn.wOut ∧
    (predict mathExp nn X).1.bOut = nn.bOut := by
  rw [predict_state]
  exact ⟨rfl, rfl, rfl, rfl, rfl⟩

/-- C10: a second `predict` call on the same input, made on the network the
first call left behind, returns the same result (matrix or error) as the first. -/
theorem predict_twice (mathExp : R → R) (nn : neuralNet R) (X : Dense R) :
    (predict mathExp (predict mathExp nn X).1 X).2 = (predict mathExp nn X).2 := by
  rw [predict_state]

/-- C3 as stated fails: positive neuron counts and equal row counts, but `X`
has two columns for one input neuron; `train` neither returns `nil` nor an
error value, the first matrix product panics. -/
theorem train_third_outcome_counterexample :
    (0 < (unitConfig 1 (1 / 2 : ℝ)).inputNeurons ∧ 0 < (unitConfig 1 (1 / 2 : ℝ)).hiddenNeurons ∧
      0 < (unitConfig 1 (1 / 2 : ℝ)).outputNeurons) ∧
    (constDense 1 1 (by decide) (by decide) (1 : ℝ)).rows =
      (constDense 1 2 (by decide) (by decide) (1 : ℝ)).rows ∧
    (train Real.exp sumAlongAxis 4096 (fun _ => 0) (newNetwork (unitConfig 1 (1 / 2 : ℝ)))
        (constDense 1 2 (by decide) (by decide) 1)
        (constDense 1 1 (by decide) (by decide) 1)).2 = some (.panic .shape) :=
  ⟨⟨by decide, by decide, by decide⟩, rfl, rfl⟩

/-- C3 amended: for positive neuron counts, `X` with `inputNeurons` columns
and `Y` with as many rows as `X` and `outputNeurons` columns, matrices that
fit the allocation limit of the machine, and a column-sum helper that returns
an error or a single row of its argument's width: `train` either returns no
error, leaving the configuration unchanged and all four matrices present with
the configured shapes, or returns an error value. -/
theorem train_succeeds_or_errors (mathExp : R → R)
    (sumAxis : Int → Dense R → Except Fault (Dense R)) (maxLen : Nat) (draws : Nat → R)
    (nn : neuralNet R) (X Y : Dense R) (hS : SumAxisSpec sumAxis)
    (hpos : 0 < nn.config.inputNeurons ∧ 0 < nn.config.hiddenNeurons ∧
      0 < nn.config.outputNeurons)
    (hfit : FitsMemory maxLen nn.config X.rows)
    (hX : (X.cols : Int) = nn.config.inputNeurons)
    (hY : Y.rows = X.rows ∧ (Y.cols : Int) = nn.config.outputNeurons) :
    ((train mathExp sumAxis maxLen draws nn X Y).2 = none ∧
      (train mathExp sumAxis maxLen draws nn X Y).1.config = nn.config ∧
      HasConfiguredShapes (train mathExp sumAxis maxLen draws nn X Y).1) ∨
    (∃ e, (train mathExp sumAxis maxLen draws nn X Y).2 = some (.error e)) := by
  obtain ⟨p0, hp0, hs0, _⟩ := initParams_ok maxLen draws nn.config X.rows hpos
    ⟨hfit.1, hfit.2.1, hfit.2.2.1⟩
  have hx : X.rows = X.rows ∧ X.cols = nn.config.inputNeurons.toNat := ⟨rfl, by omega⟩
  have hy : Y.rows = X.rows ∧ Y.cols = nn.config.outputNeurons.toNat := ⟨hY.1, by omega⟩
  rcases epochs_cases mathExp sumAxis nn.config.learningRate X Y _ _ _ _ hS hx hy
    nn.config.numEpochs.toNat p0 hs0 with ⟨e, he⟩ | ⟨q, hq, ⟨h1, h1'⟩, ⟨h2, h2'⟩, ⟨h3, h3'⟩, ⟨h4, h4'⟩, _⟩
  · right
    exact ⟨e, by simp [train, hp0, backpropagate, he]⟩
  · left
    refine ⟨by simp [train, hp0, backpropagate, hq], by simp [train, hp0, backpropagate, hq], ?_⟩
    have hst : (train mathExp sumAxis maxLen draws nn X Y).1 =
        { nn with wHidden := some q.wHidden, bHidden := some q.bHidden,
                  wOut := some q.wOut, bOut := some q.bOut } := by
      simp [train, hp0, backpropagate, hq]
    rw [hst]
    refine ⟨q.wHidden, q.bHidden, q.wOut, q.bOut, rfl, rfl, rfl, rfl, ?_⟩
    dsimp only
    exact ⟨⟨by omega, by omega⟩, ⟨h2, by omega⟩, ⟨by omega, by omega⟩, ⟨h4, by omega⟩⟩

/-- Witness for C3: two epochs on a `2 × 1` input and target with the modelled helper. -/
theorem train_succeeds_or_errors_witness :
    ((train Real.exp sumAlongAxis 4096 (fun _ => 0) (newNetwork (unitConfig 2 (1 / 2 : ℝ)))
        (constDense 2 1 (by decide) (by decide) 1)
        (constDense 2 1 (by decide) (by decide) 1)).2 = none ∧
      (train Real.exp sumAlongAxis 4096 (fun _ => 0) (newNetwork (unitConfig 2 (1 / 2 : ℝ)))
        (constDense 2 1 (by decide) (by decide) 1)
        (constDense 2 1 (by decide) (by decide) 1)).1.config
        = (newNetwork (unitConfig 2 (1 / 2 : ℝ))).config ∧
      HasConfiguredShapes
        (train Real.exp sumAlongAxis 4096 (fun _ => 0) (newNetwork (unitConfig 2 (1 / 2 : ℝ)))
          (constDense 2 1 (by decide) (by decide) 1)
          (constDense 2 1 (by decide) (by decide) 1)).1) ∨
    (∃ e, (train Real.exp sumAlongAxis 4096 (fun _ => 0) (newNetwork (unitConfig 2 (1 / 2 : ℝ)))
        (constDense 2 1 (by decide) (by decide) 1)
        (constDense 2 1 (by decide) (by decide) 1)).2 = some (.error e)) :=
  train_succeeds_or_errors Real.exp sumAlongAxis 4096 (fun _ => 0)
    (newNetwork (unitConfig 2 (1 / 2 : ℝ))) (constDense 2 1 (by decide) (by decide) 1)
    (constDense 2 1 (by decide) (by decide) 1) sumAlongAxis_spec
    ⟨by decide, by decide, by decide⟩
    ⟨by decide, by decide, by decide, by decide, by decide⟩ rfl ⟨rfl, rfl⟩

/-- C7 as stated fails: a valid configuration, `X` of one row and `Y` of two;
`train` does not return an error value, it panics in the subtraction. -/
theorem train_row_mismatch_counterexample :
    (constDense 1 1 (by decide) (by decide) (1 : ℝ)).rows ≠
      (constDense 2 1 (by decide) (by decide) (1 : ℝ)).rows ∧
    (train Real.exp sumAlongAxis 4096 (fun _ => 0) (newNetwork (unitConfig 1 (1 / 2 : ℝ)))
        (constDense 1 1 (by decide) (by decide) 1)
        (constDense 2 1 (by decide) (by decide) 1)).2 = some (.panic .shape) ∧
    ¬ ∃ e, (train Real.exp sumAlongAxis 4096 (fun _ => 0) (newNetwork (unitConfig 1 (1 / 2 : ℝ)))
        (constDense 1 1 (by decide) (by decide) 1)
        (constDense 2 1 (by decide) (by decide) 1)).2 = some (.error e) := by
  refine ⟨by decide, rfl, ?_⟩
  rintro ⟨e, he⟩
  have h : (train Real.exp sumAlongAxis 4096 (fun _ => 0) (newNetwork (unitConfig 1 (1 / 2 : ℝ)))
        (constDense 1 1 (by decide) (by decide) 1)
        (constDense 2 1 (by decide) (by decide) 1)).2 = some (.panic .shape) := rfl
  rw [h] at he
  cases he

/-- C7 amended: for a valid configuration, matrices that fit the allocation
limit of the machine, and `X` with `inputNeurons` columns whose row count
differs from that of `Y`, `train` does not succeed and does not truncate: the
subtraction of the first epoch panics with the library's dimension-mismatch
panic, no error value is returned, and the network is left as it was. -/
theorem train_row_mismatch_panics (mathExp : R → R)
    (sumAxis : Int → Dense R → Except Fault (Dense R)) (maxLen : Nat) (draws : Nat → R)
    (nn : neuralNet R) (X Y : Dense R)
    (hpos : 0 < nn.config.inputNeurons ∧ 0 < nn.config.hiddenNeurons ∧
      0 < nn.config.outputNeurons ∧ 0 < nn.config.numEpochs)
    (hfit : FitsMemory maxLen nn.config X.rows)
    (hX : (X.cols : Int) = nn.config.inputNeurons) (hrows : X.rows ≠ Y.rows) :
    (train mathExp sumAxis maxLen draws nn X Y).2 = some (.panic .shape) ∧
    (train mathExp sumAxis maxLen draws nn X Y).1 = nn := by
  obtain ⟨p0, hp0, hs0, _⟩ := initParams_ok maxLen draws nn.config X.rows
    ⟨hpos.1, hpos.2.1, hpos.2.2.1⟩ ⟨hfit.1, hfit.2.1, hfit.2.2.1⟩
  have hx : X.rows = X.rows ∧ X.cols = nn.config.inputNeurons.toNat := ⟨rfl, by omega⟩
  have he := epoch_row_mismatch mathExp sumAxis nn.config.learningRate X Y p0 _ _ _ _ hs0 hx
    (fun h => hrows h.symm)
  obtain ⟨k, hk⟩ : ∃ k, nn.config.numEpochs.toNat = k + 1 := ⟨nn.config.numEpochs.toNat - 1, by omega⟩
  have hout : (train mathExp sumAxis maxLen draws nn X Y).2 = some (.panic .shape) := by
    simp [train, hp0, backpropagate, hk, epochs, he]
  exact ⟨hout, train_fault_state mathExp sumAxis maxLen draws nn X Y _ hout⟩

/-- Witness for C7: one epoch asked for, `X` of one row and `Y` of two. -/
theorem train_row_mismatch_panics_witness :
    (train Real.exp sumAlongAxis 4096 (fun _ => 0) (newNetwork (unitConfig 1 (1 / 2 : ℝ)))
        (constDense 1 1 (by decide) (by decide) 1)
        (constDense 2 1 (by decide) (by decide) 1)).2 = some (.panic .shape) ∧
    (train Real.exp sumAlongAxis 4096 (fun _ => 0) (newNetwork (unitConfig 1 (1 / 2 : ℝ)))
        (constDense 1 1 (by decide) (by decide) 1)
        (constDense 2 1 (by decide) (by decide) 1)).1 = newNetwork (unitConfig 1 (1 / 2 : ℝ)) :=
  train_row_mismatch_panics Real.exp sumAlongAxis 4096 (fun _ => 0)
    (newNetwork (unitConfig 1 (1 / 2 : ℝ))) (constDense 1 1 (by decide) (by decide) 1)
    (constDense 2 1 (by decide) (by decide) 1)
    ⟨by decide, by decide, by decide, by decide⟩
    ⟨by decide, by decide, by decide, by decide, by decide⟩ rfl (by decide)

/-! ## The epoch as gradients followed by updates -/

theorem epoch_eq_gradients_updates (mathExp : R → R)
    (sumAxis : Int → Dense R → Except Fault (Dense R)) (lr : R) (x y : Dense R) (p : Params R) :
    epoch mathExp sumAxis lr x y p =
      (gradients mathExp x y p >>= fun g => updates sumAxis lr x p g) := by
  simp only [epoch, gradients, updates, bind_assoc, pure_bind]

/-- On well-shaped arguments the first half of an epoch succeeds, and its
five matrices have the entries of the forward pass, the error and the two gradients. -/
theorem gradients_ok (mathExp : R → R) (x y : Dense R) (p : Params R) (n inp hid out : Nat)
    (hp : p.Shaped n inp hid out) (hx : x.rows = n ∧ x.cols = inp)
    (hy : y.rows = n ∧ y.cols = out) :
    ∃ g, gradients mathExp x y p = .ok g ∧
      (g.hiddenLayerActivations.rows = n ∧ g.hiddenLayerActivations.cols = hid ∧
        ∀ i j, j < hid → g.hiddenLayerActivations.elem i j =
          sigmoid mathExp ((∑ m ∈ Finset.range inp, x.elem i m * p.wHidden.elem m j)
            + p.bHidden.elem 0 j)) ∧
      (g.output.rows = n ∧ g.output.cols = out ∧ ∀ i k, k < out → g.output.elem i k =
        sigmoid mathExp ((∑ j ∈ Finset.range hid,
          g.hiddenLayerActivations.elem i j * p.wOut.elem j k) + p.bOut.elem 0 k)) ∧
      (g.networkError.rows = n ∧ g.networkError.cols = out ∧
        g.networkError.elem = fun i k => y.elem i k - g.output.elem i k) ∧
      (g.dOutput.rows = n ∧ g.dOutput.cols = out ∧ g.dOutput.elem = fun i k =>
        g.networkError.elem i k * sigmoidPrime mathExp (g.output.elem i k)) ∧
      (g.dHiddenLayer.rows = n ∧ g.dHiddenLayer.cols = hid ∧ g.dHiddenLayer.elem = fun i j =>
        (∑ k ∈ Finset.range out, g.dOutput.elem i k * p.wOut.elem j k)
          * sigmoidPrime mathExp (g.hiddenLayerActivations.elem i j)) := by
  obtain ⟨⟨hwH1, hwH2⟩, ⟨hbH1, hbH2⟩, ⟨hwO1, hwO2⟩, ⟨hbO1, hbO2⟩, hout⟩ := hp
  obtain ⟨hx1, hx2⟩ := hx
  obtain ⟨hy1, hy2⟩ := hy
  have hhid : hid ≠ 0 := by
    have := p.bHidden.cols_ne_zero (by omega)
    omega
  have hout0 : out ≠ 0 := by
    have := p.bOut.cols_ne_zero (by omega)
    omega
  have hinp : inp ≠ 0 := by
    have := p.wHidden.rows_ne_zero (by omega)
    omega
  have hn : n ≠ 0 := by
    have := x.rows_ne_zero (by omega)
    omega
  obtain ⟨m1, e1, r1, c1, f1⟩ := Dense.Mul_ok Dense.empty x p.wHidden (by omega) (by omega)
    (by omega) (Dense.fits_empty _ _)
  obtain ⟨m2, e2, r2, c2, f2⟩ := Dense.Apply_addBias_ok m1 p.bHidden m1 (by omega) m1.fits_self
    (by omega) (by omega)
  obtain ⟨m3, e3, r3, c3, f3⟩ := Dense.Apply_sigmoid_ok mathExp Dense.empty m2 (by omega)
    (Dense.fits_empty _ _)
  obtain ⟨m4, e4, r4, c4, f4⟩ := Dense.Mul_ok Dense.empty m3 p.wOut (by omega) (by omega)
    (by omega) (Dense.fits_empty _ _)
  obtain ⟨m5, e5, r5, c5, f5⟩ := Dense.Apply_addBias_ok m4 p.bOut m4 (by omega) m4.fits_self
    (by omega) (by omega)
  obtain ⟨m6, e6, r6, c6, f6⟩ := Dense.Apply_sigmoid_ok mathExp p.output m5 (by omega)
    (by rcases hout with h | ⟨h, h'⟩
        · exact Or.inl h
        · exact Or.inr ⟨by omega, by omega⟩)
  obtain ⟨m7, e7, r7, c7, f7⟩ := Dense.Sub_ok Dense.empty y m6 (by omega) (by omega) (by omega)
    (Dense.fits_empty _ _)
  obtain ⟨m8, e8, r8, c8, f8⟩ := Dense.Apply_sigmoidPrime_ok mathExp Dense.empty m6 (by omega)
    (Dense.fits_empty _ _)
  obtain ⟨m9, e9, r9, c9, f9⟩ := Dense.Apply_sigmoidPrime_ok mathExp Dense.empty m3 (by omega)
    (Dense.fits_empty _ _)
  obtain ⟨m10, e10, r10, c10, f10⟩ := Dense.MulElem_ok Dense.empty m7 m8 (by omega) (by omega)
    (by omega) (Dense.fits_empty _ _)
  obtain ⟨m11, e11, r11, c11, f11⟩ := Dense.Mul_ok Dense.empty m10 p.wOut.T
    (by show m10.cols = p.wOut.cols; omega) (by omega)
    (by show p.wOut.rows ≠ 0; omega) (Dense.fits_empty _ _)
  obtain ⟨m12, e12, r12, c12, f12⟩ := Dense.MulElem_ok Dense.empty m11 m9 (by omega)
    (by rw [c11]; show p.wOut.rows = m9.cols; omega) (by omega) (Dense.fits_empty _ _)
  refine ⟨⟨m3, m6, m7, m10, m12⟩, ?_, ⟨r3.trans (by omega), c3.trans (by omega), ?_⟩,
    ⟨r6.trans (by omega), c6.trans (by omega), ?_⟩,
    ⟨r7.trans (by omega), c7.trans (by omega), f7⟩,
    ⟨r10.trans (by omega), c10.trans (by omega), ?_⟩, ⟨r12.trans (by omega), ?_, ?_⟩⟩
  · simp only [gradients, bind, Except.bind, pure, Except.pure, e1, e2, e3, e4, e5, e6, e7, e8,
      e9, e10, e11, e12]
  · intro i j hj
    show m3.elem i j = _
    rw [f3]
    simp only
    rw [f2 i j (by omega), f1, hx2]
  · intro i k hk
    show m6.elem i k = _
    rw [f6]
    simp only
    rw [f5 i k (by omega), f4, c3, c2, c1, hwH2]
  · show m10.elem = _
    rw [f10, f8]
  · show m12.cols = hid
    rw [c12, c11]
    show p.wOut.rows = hid
    omega
  · show m12.elem = _
    rw [f12, f11, f9, c10, c7, hy2]
    rfl

theorem Dense.reuseAsNonZeroed_inv (recv : Dense R) (r c : Nat) (f : Nat → Nat → R) (m : Dense R)
    (h : recv.reuseAsNonZeroed r c f = .ok m) : m.rows = r ∧ m.cols = c ∧ m.elem = f := by
  unfold Dense.reuseAsNonZeroed at h
  split_ifs at h <;> (injection h with h; subst h; exact ⟨rfl, rfl, rfl⟩)

theorem Dense.Scale_inv (recv : Dense R) (f : R) (a m : Dense R)
    (h : Dense.Scale recv f a = .ok m) :
    m.rows = a.rows ∧ m.cols = a.cols ∧ m.elem = fun i j => f * a.elem i j :=
  Dense.reuseAsNonZeroed_inv recv _ _ _ m h

theorem Dense.Add_inv (recv a b m : Dense R) (h : Dense.Add recv a b = .ok m) :
    m.rows = a.rows ∧ m.cols = a.cols ∧ m.elem = fun i j => a.elem i j + b.elem i j := by
  unfold Dense.Add at h
  split_ifs at h
  exact Dense.reuseAsNonZeroed_inv recv _ _ _ m h

/-- What a successful run of the bias steps says about its result. -/
theorem biasSteps_inv (sumAxis : Int → Dense R → Except Fault (Dense R)) (lr : R)
    (dOut dHid : Dense R) (p : Params R) (wH wO o : Dense R) (q : Params R)
    (h : biasSteps sumAxis lr dOut dHid p wH wO o = .ok q) :
    q.wHidden = wH ∧ q.wOut = wO ∧ q.output = o ∧
    ∃ s1 s2, sumAxis 0 dOut = .ok s1 ∧ sumAxis 0 dHid = .ok s2 ∧
      (q.bOut.rows = p.bOut.rows ∧ q.bOut.cols = p.bOut.cols ∧
        q.bOut.elem = fun i k => p.bOut.elem i k + lr * s1.elem i k) ∧
      (q.bHidden.rows = p.bHidden.rows ∧ q.bHidden.cols = p.bHidden.cols ∧
        q.bHidden.elem = fun i j => p.bHidden.elem i j + lr * s2.elem i j) := by
  unfold biasSteps at h
  simp only [bind, Except.bind] at h
  cases h1 : sumAxis 0 dOut with
  | error f => simp [h1] at h
  | ok s1 =>
    simp only [h1] at h
    cases h2 : Dense.Scale s1 lr s1 with
    | error f => simp [h2] at h
    | ok t1 =>
      simp only [h2] at h
      cases h3 : Dense.Add p.bOut p.bOut t1 with
      | error f => simp [h3] at h
      | ok bO =>
        simp only [h3] at h
        cases h4 : sumAxis 0 dHid with
        | error f => simp [h4] at h
        | ok s2 =>
          simp only [h4] at h
          cases h5 : Dense.Scale s2 lr s2 with
          | error f => simp [h5] at h
          | ok t2 =>
            simp only [h5] at h
            cases h6 : Dense.Add p.bHidden p.bHidden t2 with
            | error f => simp [h6] at h
            | ok bH =>
              simp only [h6, pure, Except.pure] at h
              injection h with h
              subst h
              obtain ⟨_, _, ft1⟩ := Dense.Scale_inv _ _ _ _ h2
              obtain ⟨rbO, cbO, fbO⟩ := Dense.Add_inv _ _ _ _ h3
              obtain ⟨_, _, ft2⟩ := Dense.Scale_inv _ _ _ _ h5
              obtain ⟨rbH, cbH, fbH⟩ := Dense.Add_inv _ _ _ _ h6
              refine ⟨rfl, rfl, rfl, s1, s2, rfl, rfl, ⟨rbO, cbO, ?_⟩, ⟨rbH, cbH, ?_⟩⟩
              · rw [fbO, ft1]
              · rw [fbH, ft2]

/-- On well-shaped gradients the two weight updates succeed with the stated
entries, and what remains of the second half of the epoch are the bias steps. -/
theorem updates_eq (sumAxis : Int → Dense R → Except Fault (Dense R)) (lr : R)
    (x : Dense R) (p : Params R) (g : Gradients R) (n inp hid out : Nat)
    (hp : p.Shaped n inp hid out) (hx : x.rows = n ∧ x.cols = inp)
    (hA : g.hiddenLayerActivations.rows = n ∧ g.hiddenLayerActivations.cols = hid)
    (hdO : g.dOutput.rows = n ∧ g.dOutput.cols = out)
    (hdH : g.dHiddenLayer.rows = n ∧ g.dHiddenLayer.cols = hid) :
    ∃ wO wH : Dense R,
      (wO.rows = hid ∧ wO.cols = out ∧ wO.elem = fun j k => p.wOut.elem j k +
        lr * ∑ i ∈ Finset.range n, g.hiddenLayerActivations.elem i j * g.dOutput.elem i k) ∧
      (wH.rows = inp ∧ wH.cols = hid ∧ wH.elem = fun m j => p.wHidden.elem m j +
        lr * ∑ i ∈ Finset.range n, x.elem i m * g.dHiddenLayer.elem i j) ∧
      updates sumAxis lr x p g = biasSteps sumAxis lr g.dOutput g.dHiddenLayer p wH wO g.output := by
  obtain ⟨⟨hwH1, hwH2⟩, ⟨hbH1, hbH2⟩, ⟨hwO1, hwO2⟩, ⟨hbO1, hbO2⟩, hout⟩ := hp
  obtain ⟨hx1, hx2⟩ := hx
  obtain ⟨hA1, hA2⟩ := hA
  obtain ⟨hdO1, hdO2⟩ := hdO
  obtain ⟨hdH1, hdH2⟩ := hdH
  have hhid : hid ≠ 0 := by
    have := p.bHidden.cols_ne_zero (by omega)
    omega
  have hout0 : out ≠ 0 := by
    have := p.bOut.cols_ne_zero (by omega)
    omega
  have hinp : inp ≠ 0 := by
    have := p.wHidden.rows_ne_zero (by omega)
    omega
  obtain ⟨m13, e13, r13, c13, f13⟩ := Dense.Mul_ok Dense.empty g.hiddenLayerActivations.T
    g.dOutput (by show g.hiddenLayerActivations.rows = g.dOutput.rows; omega)
    (by show g.hiddenLayerActivations.cols ≠ 0; omega) (by omega) (Dense.fits_empty _ _)
  have r13' : m13.rows = hid := by rw [r13]; exact hA2
  obtain ⟨m14, e14, r14, c14, f14⟩ := Dense.Scale_ok m13 lr m13 (by omega) m13.fits_self
  obtain ⟨m15, e15, r15, c15, f15⟩ := Dense.Add_ok p.wOut p.wOut m14 (by omega) (by omega)
    (by omega) p.wOut.fits_self
  obtain ⟨m16, e16, r16, c16, f16⟩ := Dense.Mul_ok Dense.empty x.T g.dHiddenLayer
    (by show x.rows = g.dHiddenLayer.rows; omega) (by show x.cols ≠ 0; omega) (by omega)
    (Dense.fits_empty _ _)
  have r16' : m16.rows = inp := by rw [r16]; exact hx2
  obtain ⟨m17, e17, r17, c17, f17⟩ := Dense.Scale_ok m16 lr m16 (by omega) m16.fits_self
  obtain ⟨m18, e18, r18, c18, f18⟩ := Dense.Add_ok p.wHidden p.wHidden m17 (by omega) (by omega)
    (by omega) p.wHidden.fits_self
  refine ⟨m15, m18, ⟨by omega, by omega, ?_⟩, ⟨by omega, by omega, ?_⟩, ?_⟩
  · rw [f15, f14, f13]
    have : g.hiddenLayerActivations.T.cols = n := hA1
    rw [this]
    rfl
  · rw [f18, f17, f16]
    have : x.T.cols = n := hx1
    rw [this]
    rfl
  · simp only [updates, biasSteps, bind, Except.bind, e13, e14, e15, e16, e17, e18]

/-- What a successful epoch on well-shaped arguments has computed: the
gradients of its first half, both weight matrices updated from them, and
both bias rows updated by the scaled results of the helper. -/
theorem epoch_ok_inv (mathExp : R → R) (sumAxis : Int → Dense R → Except Fault (Dense R))
    (lr : R) (x y : Dense R) (p q : Params R) (n inp hid out : Nat)
    (hp : p.Shaped n inp hid out) (hx : x.rows = n ∧ x.cols = inp)
    (hy : y.rows = n ∧ y.cols = out)
    (hq : epoch mathExp sumAxis lr x y p = .ok q) :
    ∃ g s1 s2, gradients mathExp x y p = .ok g ∧
      sumAxis 0 g.dOutput = .ok s1 ∧ sumAxis 0 g.dHiddenLayer = .ok s2 ∧
      q.output = g.output ∧
      (q.wOut.rows = hid ∧ q.wOut.cols = out ∧ q.wOut.elem = fun j k => p.wOut.elem j k +
        lr * ∑ i ∈ Finset.range n, g.hiddenLayerActivations.elem i j * g.dOutput.elem i k) ∧
      (q.wHidden.rows = inp ∧ q.wHidden.cols = hid ∧ q.wHidden.elem = fun m j =>
        p.wHidden.elem m j + lr * ∑ i ∈ Finset.range n, x.elem i m * g.dHiddenLayer.elem i j) ∧
      (q.bOut.rows = 1 ∧ q.bOut.cols = out ∧
        q.bOut.elem = fun i k => p.bOut.elem i k + lr * s1.elem i k) ∧
      (q.bHidden.rows = 1 ∧ q.bHidden.cols = hid ∧
        q.bHidden.elem = fun i j => p.bHidden.elem i j + lr * s2.elem i j) := by
  obtain ⟨g, hg, ⟨rA, cA, _⟩, _, _, ⟨rdO, cdO, _⟩, ⟨rdH, cdH, _⟩⟩ :=
    gradients_ok mathExp x y p n inp hid out hp hx hy
  obtain ⟨wO, wH, ⟨rwO, cwO, fwO⟩, ⟨rwH, cwH, fwH⟩, hu⟩ :=
    updates_eq sumAxis lr x p g n inp hid out hp hx ⟨rA, cA⟩ ⟨rdO, cdO⟩ ⟨rdH, cdH⟩
  rw [epoch_eq_gradients_updates, hg] at hq
  have hq' : biasSteps sumAxis lr g.dOutput g.dHiddenLayer p wH wO g.output = .ok q := by
    rw [← hu]
    exact hq
  obtain ⟨e1, e2, e3, s1, s2, h1, h2, ⟨rbO, cbO, fbO⟩, ⟨rbH, cbH, fbH⟩⟩ :=
    biasSteps_inv sumAxis lr _ _ p wH wO g.output q hq'
  obtain ⟨_, ⟨hbH1, hbH2⟩, _, ⟨hbO1, hbO2⟩, _⟩ := hp
  refine ⟨g, s1, s2, hg, h1, h2, e3, ⟨?_, ?_, ?_⟩, ⟨?_, ?_, ?_⟩, ⟨by omega, by omega, fbO⟩,
    ⟨by omega, by omega, fbH⟩⟩
  · rw [e2]; exact rwO
  · rw [e2]; exact cwO
  · rw [e2]; exact fwO
  · rw [e1]; exact rwH
  · rw [e1]; exact cwH
  · rw [e1]; exact fwH

/-! ## Determinism and the loop -/

/-- The outcome of `train` and the matrices it would install depend on the
network only through its configuration. -/
theorem train_config_only (mathExp : R → R)
    (sumAxis : Int → Dense R → Except Fault (Dense R)) (maxLen : Nat) (draws : Nat → R)
    (nn1 nn2 : neuralNet R) (X Y : Dense R) (hc : nn1.config = nn2.config) :
    (train mathExp sumAxis maxLen draws nn1 X Y).2 = (train mathExp sumAxis maxLen draws nn2 X Y).2 ∧
    ((train mathExp sumAxis maxLen draws nn1 X Y).2 = none →
      (train mathExp sumAxis maxLen draws nn1 X Y).1.wHidden
        = (train mathExp sumAxis maxLen draws nn2 X Y).1.wHidden ∧
      (train mathExp sumAxis maxLen draws nn1 X Y).1.bHidden
        = (train mathExp sumAxis maxLen draws nn2 X Y).1.bHidden ∧
      (train mathExp sumAxis maxLen draws nn1 X Y).1.wOut
        = (train mathExp sumAxis maxLen draws nn2 X Y).1.wOut ∧
      (train mathExp sumAxis maxLen draws nn1 X Y).1.bOut
        = (train mathExp sumAxis maxLen draws nn2 X Y).1.bOut) := by
  simp only [train, backpropagate, hc]
  cases hi : initParams maxLen draws nn2.config with
  | error f => simp
  | ok p0 =>
    cases he : epochs mathExp sumAxis nn2.config.learningRate X Y nn2.config.numEpochs.toNat p0 with
    | error f => simp [he]
    | ok p => simp [he]

theorem epochIterate_succ_first (mathExp : R → R)
    (sumAxis : Int → Dense R → Except Fault (Dense R)) (lr : R) (x y : Dense R) (k : Nat) :
    ∀ p : Params R, epochIterate mathExp sumAxis lr x y (k + 1) p =
      match epoch mathExp sumAxis lr x y p with
      | .error f => .error f
      | .ok q => epochIterate mathExp sumAxis lr x y k q := by
  induction k with
  | zero =>
    intro p
    simp only [epochIterate]
    cases epoch mathExp sumAxis lr x y p <;> rfl
  | succ k ih =>
    intro p
    rw [epochIterate, ih p]
    cases epoch mathExp sumAxis lr x y p with
    | error f => rfl
    | ok q => simp only [epochIterate]

theorem epochs_eq_epochIterate (mathExp : R → R)
    (sumAxis : Int → Dense R → Except Fault (Dense R)) (lr : R) (x y : Dense R) (k : Nat) :
    ∀ p : Params R, epochs mathExp sumAxis lr x y k p = epochIterate mathExp sumAxis lr x y k p := by
  induction k with
  | zero => intro p; rfl
  | succ k ih =>
    intro p
    rw [epochIterate_succ_first, epochs]
    cases epoch mathExp sumAxis lr x y p with
    | error f => rfl
    | ok q => exact ih q

/-! ## Claims on determinism, the activation functions and the loop -/

/-- C11: with the same initial draws, the same `X`, `Y` and configuration, a
second `train` run (on any network with that configuration, such as the one
the first run left behind) succeeds when the first does and installs the same
four parameter matrices. -/
theorem train_deterministic (mathExp : R → R)
    (sumAxis : Int → Dense R → Except Fault (Dense R)) (maxLen : Nat) (draws : Nat → R)
    (nn1 nn2 : neuralNet R) (X Y : Dense R) (hc : nn1.config = nn2.config)
    (hok : (train mathExp sumAxis maxLen draws nn1 X Y).2 = none) :
    (train mathExp sumAxis maxLen draws nn2 X Y).2 = none ∧
    (train mathExp sumAxis maxLen draws nn2 X Y).1.wHidden
      = (train mathExp sumAxis maxLen draws nn1 X Y).1.wHidden ∧
    (train mathExp sumAxis maxLen draws nn2 X Y).1.bHidden
      = (train mathExp sumAxis maxLen draws nn1 X Y).1.bHidden ∧
    (train mathExp sumAxis maxLen draws nn2 X Y).1.wOut
      = (train mathExp sumAxis maxLen draws nn1 X Y).1.wOut ∧
    (train mathExp sumAxis maxLen draws nn2 X Y).1.bOut
      = (train mathExp sumAxis maxLen draws nn1 X Y).1.bOut := by
  obtain ⟨h1, h2⟩ := train_config_only mathExp sumAxis maxLen draws nn1 nn2 X Y hc
  obtain ⟨a, b, c, d⟩ := h2 hok
  exact ⟨h1 ▸ hok, a.symm, b.symm, c.symm, d.symm⟩

/-- Witness for C11: a first run on a fresh network and a second run on a
network that already holds parameters. -/
theorem train_deterministic_witness :
    (train Real.exp sumAlongAxis 4096 (fun k => 1 / ((k : ℝ) + 2)) (unitNetwork 2 (1 / 2 : ℝ))
        (constDense 2 1 (by decide) (by decide) 1)
        (constDense 2 1 (by decide) (by decide) 1)).2 = none ∧
    (train Real.exp sumAlongAxis 4096 (fun k => 1 / ((k : ℝ) + 2)) (unitNetwork 2 (1 / 2 : ℝ))
        (constDense 2 1 (by decide) (by decide) 1)
        (constDense 2 1 (by decide) (by decide) 1)).1.wHidden
      = (train Real.exp sumAlongAxis 4096 (fun k => 1 / ((k : ℝ) + 2))
          (newNetwork (unitConfig 2 (1 / 2 : ℝ)))
          (constDense 2 1 (by decide) (by decide) 1)
          (constDense 2 1 (by decide) (by decide) 1)).1.wHidden :=
  ⟨(train_deterministic Real.exp sumAlongAxis 4096 (fun k => 1 / ((k : ℝ) + 2))
      (newNetwork (unitConfig 2 (1 / 2 : ℝ))) (unitNetwork 2 (1 / 2 : ℝ))
      (constDense 2 1 (by decide) (by decide) 1) (constDense 2 1 (by decide) (by decide) 1)
      rfl rfl).1,
   (train_deterministic Real.exp sumAlongAxis 4096 (fun k => 1 / ((k : ℝ) + 2))
      (newNetwork (unitConfig 2 (1 / 2 : ℝ))) (unitNetwork 2 (1 / 2 : ℝ))
      (constDense 2 1 (by decide) (by decide) 1) (constDense 2 1 (by decide) (by decide) 1)
      rfl rfl).2.1⟩

/-- C12: over the reals the denominator of `sigmoid` is never zero, `sigmoid`
is differentiable everywhere, and `sigmoidPrime` is its derivative. -/
theorem sigmoidPrime_is_derivative (x : ℝ) :
    1 + Real.exp (-x) ≠ 0 ∧ sigmoid Real.exp x = 1 / (1 + Real.exp (-x)) ∧
    DifferentiableAt ℝ (sigmoid Real.exp) x ∧
    deriv (sigmoid Real.exp) x = sigmoidPrime Real.exp x := by
  have hpos : 0 < 1 + Real.exp (-x) := by positivity
  have hne : 1 + Real.exp (-x) ≠ 0 := ne_of_gt hpos
  have hexp : HasDerivAt (fun t : ℝ => Real.exp (-t)) (Real.exp (-x) * (-1)) x :=
    (Real.hasDerivAt_exp (-x)).comp x (hasDerivAt_neg x)
  have hden : HasDerivAt (fun t : ℝ => 1 + Real.exp (-t)) (Real.exp (-x) * (-1)) x :=
    hexp.const_add 1
  have hsig : HasDerivAt (sigmoid Real.exp)
      ((0 * (1 + Real.exp (-x)) - 1 * (Real.exp (-x) * (-1))) / (1 + Real.exp (-x)) ^ 2) x :=
    (hasDerivAt_const x (1 : ℝ)).div hden hne
  refine ⟨hne, rfl, hsig.differentiableAt, ?_⟩
  rw [hsig.deriv]
  unfold sigmoidPrime sigmoid
  field_simp
  ring

/-- C13: for every integer `k`, `backpropagate` with `numEpochs = k` returns
what the single-epoch step applied `max(k, 0)` times in sequence returns, each
step starting from the previous step's result and none skipped; for
`numEpochs ≤ 0` it returns the initial matrices unchanged. -/
theorem backpropagate_iterates (mathExp : R → R)
    (sumAxis : Int → Dense R → Except Fault (Dense R)) (nn : neuralNet R) (x y : Dense R)
    (p : Params R) (k : Int) (j : Nat) :
    backpropagate mathExp sumAxis { nn with config := { nn.config with numEpochs := k } } x y p
      = epochIterate mathExp sumAxis nn.config.learningRate x y (max k 0).toNat p ∧
    backpropagate mathExp sumAxis
      { nn with config := { nn.config with numEpochs := -(j : Int) } } x y p = .ok p := by
  constructor
  · have hk : (max k 0).toNat = k.toNat := by omega
    rw [hk]
    exact epochs_eq_epochIterate mathExp sumAxis nn.config.learningRate x y k.toNat p
  · have hj : (-(j : Int)).toNat = 0 := by omega
    simp only [backpropagate, hj, epochs]

/-- C20 as stated fails: two networks with the same configuration, one fresh
and one holding parameters; on an `X` that makes the first matrix product
panic both calls end alike, but the stored parameters stay different. -/
theorem train_stored_parameters_counterexample :
    (newNetwork (unitConfig 1 (1 / 2 : ℝ))).config = (unitNetwork 1 (1 / 2 : ℝ)).config ∧
    (train Real.exp sumAlongAxis 4096 (fun _ => 0) (newNetwork (unitConfig 1 (1 / 2 : ℝ)))
        (constDense 1 2 (by decide) (by decide) 1)
        (constDense 1 1 (by decide) (by decide) 1)).2
      = (train Real.exp sumAlongAxis 4096 (fun _ => 0) (unitNetwork 1 (1 / 2 : ℝ))
        (constDense 1 2 (by decide) (by decide) 1)
        (constDense 1 1 (by decide) (by decide) 1)).2 ∧
    (train Real.exp sumAlongAxis 4096 (fun _ => 0) (newNetwork (unitConfig 1 (1 / 2 : ℝ)))
        (constDense 1 2 (by decide) (by decide) 1)
        (constDense 1 1 (by decide) (by decide) 1)).1.wHidden
      ≠ (train Real.exp sumAlongAxis 4096 (fun _ => 0) (unitNetwork 1 (1 / 2 : ℝ))
        (constDense 1 2 (by decide) (by decide) 1)
        (constDense 1 1 (by decide) (by decide) 1)).1.wHidden := by
  refine ⟨rfl, rfl, ?_⟩
  have h1 : (train Real.exp sumAlongAxis 4096 (fun _ => 0) (newNetwork (unitConfig 1 (1 / 2 : ℝ)))
        (constDense 1 2 (by decide) (by decide) 1)
        (constDense 1 1 (by decide) (by decide) 1)).1.wHidden = none := rfl
  have h2 : (train Real.exp sumAlongAxis 4096 (fun _ => 0) (unitNetwork 1 (1 / 2 : ℝ))
        (constDense 1 2 (by decide) (by decide) 1)
        (constDense 1 1 (by decide) (by decide) 1)).1.wHidden
      = some (constDense 1 1 (by decide) (by decide) (1 / 2)) := rfl
  rw [h1, h2]
  exact fun h => Option.noConfusion h

/-- C20 amended: `train` never reads the stored parameters.  Replacing them by
any others (absent or present) leaves the outcome of the call unchanged; when
the call succeeds both networks end in the same state, and when it does not
each network keeps the parameters it had. -/
theorem train_ignores_stored_parameters (mathExp : R → R)
    (sumAxis : Int → Dense R → Except Fault (Dense R)) (maxLen : Nat) (draws : Nat → R)
    (nn : neuralNet R) (X Y : Dense R) (wH bH wO bO : Option (Dense R)) :
    (train mathExp sumAxis maxLen draws { nn with wHidden := wH, bHidden := bH, wOut := wO, bOut := bO }
        X Y).2 = (train mathExp sumAxis maxLen draws nn X Y).2 ∧
    ((train mathExp sumAxis maxLen draws nn X Y).2 = none →
      (train mathExp sumAxis maxLen draws
        { nn with wHidden := wH, bHidden := bH, wOut := wO, bOut := bO } X Y).1
        = (train mathExp sumAxis maxLen draws nn X Y).1) ∧
    ((train mathExp sumAxis maxLen draws nn X Y).2 ≠ none →
      (train mathExp sumAxis maxLen draws
        { nn with wHidden := wH, bHidden := bH, wOut := wO, bOut := bO } X Y).1
        = { nn with wHidden := wH, bHidden := bH, wOut := wO, bOut := bO } ∧
      (train mathExp sumAxis maxLen draws nn X Y).1 = nn) := by
  simp only [train, backpropagate]
  cases hi : initParams maxLen draws nn.config with
  | error f => simp
  | ok p0 =>
    cases he : epochs mathExp sumAxis nn.config.learningRate X Y nn.config.numEpochs.toNat p0 with
    | error f => simp [he]
    | ok p => simp [he]

/-- Witness for C20: retraining a network that holds parameters ends in the
same state as training a fresh network with the same configuration. -/
theorem train_ignores_stored_parameters_witness :
    (train Real.exp sumAlongAxis 4096 (fun k => 1 / ((k : ℝ) + 2))
        { newNetwork (unitConfig 2 (1 / 2 : ℝ)) with
          wHidden := some (constDense 1 1 (by decide) (by decide) 7), bHidden := none,
          wOut := some (constDense 1 1 (by decide) (by decide) 7), bOut := none }
        (constDense 2 1 (by decide) (by decide) 1)
        (constDense 2 1 (by decide) (by decide) 1)).1
      = (train Real.exp sumAlongAxis 4096 (fun k => 1 / ((k : ℝ) + 2))
          (newNetwork (unitConfig 2 (1 / 2 : ℝ)))
          (constDense 2 1 (by decide) (by decide) 1)
          (constDense 2 1 (by decide) (by decide) 1)).1 :=
  (train_ignores_stored_parameters Real.exp sumAlongAxis 4096 (fun k => 1 / ((k : ℝ) + 2))
    (newNetwork (unitConfig 2 (1 / 2 : ℝ))) (constDense 2 1 (by decide) (by decide) 1)
    (constDense 2 1 (by decide) (by decide) 1)
    (some (constDense 1 1 (by decide) (by decide) 7)) none
    (some (constDense 1 1 (by decide) (by decide) 7)) none).2.1 rfl

/-! ## Failures of the forward pass are panics -/

theorem Dense.reuseAsNonZeroed_fault (recv : Dense R) (r c : Nat) (f : Nat → Nat → R) (e : Fault)
    (h : recv.reuseAsNonZeroed r c f = .error e) : e.IsPanic := by
  unfold Dense.reuseAsNonZeroed at h
  split_ifs at h <;> (injection h with h; subst h; exact ⟨_, rfl⟩)

theorem Dense.Mul_fault (recv a b : Dense R) (e : Fault)
    (h : Dense.Mul recv a b = .error e) : e.IsPanic := by
  unfold Dense.Mul at h
  split_ifs at h
  · injection h with h
    subst h
    exact ⟨_, rfl⟩
  · exact Dense.reuseAsNonZeroed_fault recv _ _ _ e h

theorem firstFault_some (fn : Nat → Nat → R → Except Fault R) (a : Dense R) (e : Fault)
    (h : firstFault fn a = some e) : ∃ i j v, fn i j v = .error e := by
  unfold firstFault at h
  obtain ⟨i, _, hi⟩ := List.exists_of_findSome?_eq_some h
  obtain ⟨j, _, hj⟩ := List.exists_of_findSome?_eq_some hi
  refine ⟨i, j, a.elem i j, ?_⟩
  cases hf : fn i j (a.elem i j) with
  | error g =>
    rw [hf] at hj
    injection hj with hj
    rw [hj]
  | ok v =>
    rw [hf] at hj
    cases hj

theorem Dense.Apply_fault (recv : Dense R) (fn : Nat → Nat → R → Except Fault R) (a : Dense R)
    (e : Fault) (hfn : ∀ i j v g, fn i j v = .error g → g.IsPanic)
    (h : Dense.Apply recv fn a = .error e) : e.IsPanic := by
  unfold Dense.Apply at h
  split at h
  · rename_i g hg
    injection h with h
    subst h
    exact Dense.reuseAsNonZeroed_fault recv _ _ _ _ hg
  · split at h
    · rename_i g hg
      injection h with h
      subst h
      obtain ⟨i, j, v, hv⟩ := firstFault_some fn a _ hg
      exact hfn i j v _ hv
    · cases h

theorem addBias_fault (b : Dense R) (i j : Nat) (v : R) (g : Fault)
    (h : addBias b i j v = .error g) : g.IsPanic := by
  unfold addBias Dense.At at h
  split_ifs at h <;> (simp only at h; injection h with h; subst h; exact ⟨_, rfl⟩)

theorem applySigmoid_fault (mathExp : R → R) (i j : Nat) (v : R) (g : Fault)
    (h : applySigmoid mathExp i j v = .error g) : g.IsPanic := by
  cases h

/-- The forward pass of `predict` returns no error value: when it does not
produce a matrix, a matrix operation has panicked. -/
theorem predictForward_fault (mathExp : R → R) (wH bH wO bO x : Dense R) (e : Fault)
    (h : predictForward mathExp wH bH wO bO x = .error e) : e.IsPanic := by
  unfold predictForward at h
  simp only [bind, Except.bind] at h
  cases h1 : Dense.Mul Dense.empty x wH with
  | error g => rw [h1] at h; injection h with h; exact h ▸ Dense.Mul_fault _ _ _ _ h1
  | ok m1 =>
    simp only [h1] at h
    cases h2 : Dense.Apply m1 (addBias bH) m1 with
    | error g =>
      rw [h2] at h; injection h with h
      exact h ▸ Dense.Apply_fault _ _ _ _ (addBias_fault bH) h2
    | ok m2 =>
      simp only [h2] at h
      cases h3 : Dense.Apply Dense.empty (applySigmoid mathExp) m2 with
      | error g =>
        rw [h3] at h; injection h with h
        exact h ▸ Dense.Apply_fault _ _ _ _ (applySigmoid_fault mathExp) h3
      | ok m3 =>
        simp only [h3] at h
        cases h4 : Dense.Mul Dense.empty m3 wO with
        | error g => rw [h4] at h; injection h with h; exact h ▸ Dense.Mul_fault _ _ _ _ h4
        | ok m4 =>
          simp only [h4] at h
          cases h5 : Dense.Apply m4 (addBias bO) m4 with
          | error g =>
            rw [h5] at h; injection h with h
            exact h ▸ Dense.Apply_fault _ _ _ _ (addBias_fault bO) h5
          | ok m5 =>
            simp only [h5] at h
            exact Dense.Apply_fault _ _ _ _ (applySigmoid_fault mathExp) h

theorem allOrNothing_of_reachable (mathExp : R → R)
    (sumAxis : Int → Dense R → Except Fault (Dense R)) (c : neuralNetConfig R)
    (nn : neuralNet R) (h : Reachable mathExp sumAxis c nn) : AllOrNothing nn := by
  induction h with
  | init => exact Or.inr ⟨rfl, rfl, rfl, rfl⟩
  | @train nn maxLen draws x y _ ih =>
    cases ho : (train mathExp sumAxis maxLen draws nn x y).2 with
    | some f => rw [train_fault_state mathExp sumAxis maxLen draws nn x y f ho]; exact ih
    | none =>
      obtain ⟨p0, p, _, _, hst⟩ := train_ok_state mathExp sumAxis maxLen draws nn x y ho
      rw [hst]
      exact Or.inl ⟨rfl, rfl, rfl, rfl⟩
  | @predict nn x _ ih => rw [predict_state]; exact ih

/-- The outcomes of `predict` on a network whose matrices are all present or
all absent: a matrix, the weights-empty error, or a panic. -/
theorem predict_outcomes (mathExp : R → R) (nn : neuralNet R) (X : Dense R)
    (h : AllOrNothing nn) (f : Fault) (hf : (predict mathExp nn X).2 = .error f) :
    f = errWeightsEmpty ∨ f.IsPanic := by
  rcases h with ⟨h1, h2, h3, h4⟩ | ⟨h1, h2, h3, h4⟩
  · obtain ⟨wH, e1⟩ := Option.isSome_iff_exists.mp h1
    obtain ⟨bH, e2⟩ := Option.isSome_iff_exists.mp h2
    obtain ⟨wO, e3⟩ := Option.isSome_iff_exists.mp h3
    obtain ⟨bO, e4⟩ := Option.isSome_iff_exists.mp h4
    right
    simp only [predict, e1, e2, e3, e4, Option.isNone_some, Bool.or_self, Bool.false_eq_true,
      if_false] at hf
    exact predictForward_fault mathExp wH bH wO bO X f hf
  · left
    simp only [predict, h1, h3, Option.isNone_none, Bool.or_self, if_true] at hf
    injection hf with hf
    exact hf.symm

/-! ## Claims on reachable states -/

/-- C17: in a state reachable from `newNetwork c` by `train` and `predict`
calls, `predict` never returns the biases-empty error, and whenever it returns
an error that error is the weights-empty error: the bias check is reached
only with both weight matrices present, and `train` installs all four
matrices together. -/
theorem reachable_predict_errors (mathExp : R → R)
    (sumAxis : Int → Dense R → Except Fault (Dense R)) (c : neuralNetConfig R)
    (nn : neuralNet R) (X : Dense R) (h : Reachable mathExp sumAxis c nn) :
    (predict mathExp nn X).2 ≠ .error errBiasesEmpty ∧
    (∀ e, (predict mathExp nn X).2 = .error (.error e) →
      (predict mathExp nn X).2 = .error errWeightsEmpty) := by
  have hall := allOrNothing_of_reachable mathExp sumAxis c nn h
  have key := predict_outcomes mathExp nn X hall
  refine ⟨?_, ?_⟩
  · intro hb
    rcases key _ hb with h1 | ⟨pn, h1⟩
    · exact absurd h1 (by decide)
    · simp [errBiasesEmpty] at h1
  · intro e he
    rcases key _ he with h1 | ⟨pn, h1⟩
    · rw [he, h1]
    · cases h1

/-- Witness for C17: a fresh network, on which `predict` returns the weights-empty error. -/
theorem reachable_predict_errors_witness :
    (predict Real.exp (newNetwork (unitConfig 1 (1 / 2 : ℝ)))
      (constDense 1 1 (by decide) (by decide) 1)).2 ≠ .error errBiasesEmpty ∧
    (predict Real.exp (newNetwork (unitConfig 1 (1 / 2 : ℝ)))
      (constDense 1 1 (by decide) (by decide) 1)).2 = .error errWeightsEmpty :=
  ⟨(reachable_predict_errors Real.exp sumAlongAxis (unitConfig 1 (1 / 2 : ℝ))
      (newNetwork (unitConfig 1 (1 / 2 : ℝ))) (constDense 1 1 (by decide) (by decide) 1)
      Reachable.init).1,
   (reachable_predict_errors Real.exp sumAlongAxis (unitConfig 1 (1 / 2 : ℝ))
      (newNetwork (unitConfig 1 (1 / 2 : ℝ))) (constDense 1 1 (by decide) (by decide) 1)
      Reachable.init).2 "the supplied weights are empty" rfl⟩

/-! ## Epochs with a column-summing helper -/

theorem sumAlongAxis_columnSums :
    ColumnSums (sumAlongAxis : Int → Dense R → Except Fault (Dense R)) := by
  intro d hd
  have h : ¬ (d.rows = 0 ∨ d.cols = 0) := by
    have := d.cols_ne_zero hd
    tauto
  unfold sumAlongAxis
  rw [dif_neg h, if_pos rfl]
  exact ⟨_, rfl, rfl, rfl, fun j _ => rfl⟩

/-- With a column-summing helper an epoch on well-shaped arguments succeeds,
and both helper calls return the column sums of the gradients. -/
theorem epoch_ok_of_columnSums (mathExp : R → R)
    (sumAxis : Int → Dense R → Except Fault (Dense R)) (lr : R) (x y : Dense R)
    (p : Params R) (n inp hid out : Nat) (hC : ColumnSums sumAxis)
    (hp : p.Shaped n inp hid out) (hx : x.rows = n ∧ x.cols = inp)
    (hy : y.rows = n ∧ y.cols = out) :
    ∃ g s1 s2 q, gradients mathExp x y p = .ok g ∧
      sumAxis 0 g.dOutput = .ok s1 ∧ sumAxis 0 g.dHiddenLayer = .ok s2 ∧
      epoch mathExp sumAxis lr x y p = .ok q ∧
      (s1.rows = 1 ∧ s1.cols = g.dOutput.cols ∧
        ∀ k, k < out → s1.elem 0 k = ∑ i ∈ Finset.range n, g.dOutput.elem i k) ∧
      (s2.rows = 1 ∧ s2.cols = g.dHiddenLayer.cols ∧
        ∀ j, j < hid → s2.elem 0 j = ∑ i ∈ Finset.range n, g.dHiddenLayer.elem i j) := by
  obtain ⟨g, hg, ⟨rA, cA, _⟩, _, _, ⟨rdO, cdO, _⟩, ⟨rdH, cdH, _⟩⟩ :=
    gradients_ok mathExp x y p n inp hid out hp hx hy
  obtain ⟨wO, wH, _, _, hu⟩ :=
    updates_eq sumAxis lr x p g n inp hid out hp hx ⟨rA, cA⟩ ⟨rdO, cdO⟩ ⟨rdH, cdH⟩
  have hn : n ≠ 0 := by
    have := x.rows_ne_zero (by
      have := p.wHidden.rows_ne_zero (by
        have := p.bHidden.cols_ne_zero (by have := hp.2.1.1; omega)
        have := hp.2.1.2
        have := hp.1.2
        omega)
      have := hp.1.1
      have := hx.2
      omega)
    have := hx.1
    omega
  obtain ⟨s1, h1, r1, c1, f1⟩ := hC g.dOutput (by omega)
  obtain ⟨s2, h2, r2, c2, f2⟩ := hC g.dHiddenLayer (by omega)
  obtain ⟨t1, bO, et1, ebO, _, _, _⟩ := biasUpdate_ok lr p.bOut s1 out hp.2.2.2.1 ⟨r1, by omega⟩
  obtain ⟨t2, bH, et2, ebH, _, _, _⟩ := biasUpdate_ok lr p.bHidden s2 hid hp.2.1 ⟨r2, by omega⟩
  refine ⟨g, s1, s2,
    { wHidden := wH, bHidden := bH, wOut := wO, bOut := bO, output := g.output },
    hg, h1, h2, ?_, ⟨r1, c1, ?_⟩, ⟨r2, c2, ?_⟩⟩
  · rw [epoch_eq_gradients_updates, hg]
    show updates sumAxis lr x p g = _
    rw [hu]
    simp only [biasSteps, bind, Except.bind, pure, Except.pure, h1, et1, ebO, h2, et2, ebH]
  · intro k hk
    rw [f1 k (by omega), rdO]
  · intro j hj
    rw [f2 j (by omega), rdH]

/-! ## Claims on one epoch -/

/-- C14: in an epoch on well-shaped arguments, with `hiddenAct` and `output`
the forward pass on the epoch's starting parameters, `networkError = Y - output`,
`dOutput = networkError ⊙ sigmoidPrime(output)` and
`dHidden = (dOutput · wOutᵀ) ⊙ sigmoidPrime(hiddenAct)`; the slope is the sigmoid
formula applied to the activation values themselves, and `wOut` is the value
the epoch started with.  The updates of the epoch run on exactly these matrices. -/
theorem epoch_gradient_signals (mathExp : R → R)
    (sumAxis : Int → Dense R → Except Fault (Dense R)) (lr : R) (x y : Dense R)
    (p : Params R) (n inp hid out : Nat)
    (hp : p.Shaped n inp hid out) (hx : x.rows = n ∧ x.cols = inp)
    (hy : y.rows = n ∧ y.cols = out) :
    ∃ g, gradients mathExp x y p = .ok g ∧
      epoch mathExp sumAxis lr x y p = updates sumAxis lr x p g ∧
      (∀ i j, i < n → j < hid → g.hiddenLayerActivations.elem i j =
        sigmoid mathExp ((∑ m ∈ Finset.range inp, x.elem i m * p.wHidden.elem m j)
          + p.bHidden.elem 0 j)) ∧
      (∀ i k, i < n → k < out → g.output.elem i k =
        sigmoid mathExp ((∑ j ∈ Finset.range hid,
          g.hiddenLayerActivations.elem i j * p.wOut.elem j k) + p.bOut.elem 0 k)) ∧
      (∀ i k, i < n → k < out → g.networkError.elem i k = y.elem i k - g.output.elem i k) ∧
      (∀ i k, i < n → k < out → g.dOutput.elem i k = g.networkError.elem i k *
        (sigmoid mathExp (g.output.elem i k) * (1 - sigmoid mathExp (g.output.elem i k)))) ∧
      (∀ i j, i < n → j < hid → g.dHiddenLayer.elem i j =
        (∑ k ∈ Finset.range out, g.dOutput.elem i k * p.wOut.elem j k) *
        (sigmoid mathExp (g.hiddenLayerActivations.elem i j) *
          (1 - sigmoid mathExp (g.hiddenLayerActivations.elem i j)))) := by
  obtain ⟨g, hg, ⟨_, _, fA⟩, ⟨_, _, fO⟩, ⟨_, _, fE⟩, ⟨_, _, fdO⟩, ⟨_, _, fdH⟩⟩ :=
    gradients_ok mathExp x y p n inp hid out hp hx hy
  refine ⟨g, hg, ?_, fun i j _ hj => fA i j hj, fun i k _ hk => fO i k hk, ?_, ?_, ?_⟩
  · rw [epoch_eq_gradients_updates, hg]
    rfl
  · intro i k _ _
    rw [fE]
  · intro i k _ _
    rw [fdO]
    rfl
  · intro i j _ _
    rw [fdH]
    rfl

/-- Witness for C14: four `1 × 1` parameters of entry `1/2`, two samples. -/
theorem epoch_gradient_signals_witness :
    ∃ g, gradients Real.exp (constDense 2 1 (by decide) (by decide) 1)
        (constDense 2 1 (by decide) (by decide) 1) (unitParams (1 / 2 : ℝ)) = .ok g ∧
      ∀ i k, i < 2 → k < 1 → g.dOutput.elem i k = g.networkError.elem i k *
        (sigmoid Real.exp (g.output.elem i k) * (1 - sigmoid Real.exp (g.output.elem i k))) :=
  let ⟨g, hg, _, _, _, _, hd, _⟩ := epoch_gradient_signals Real.exp sumAlongAxis (1 / 2 : ℝ)
    (constDense 2 1 (by decide) (by decide) 1) (constDense 2 1 (by decide) (by decide) 1)
    (unitParams (1 / 2 : ℝ)) 2 1 1 1
    ⟨⟨rfl, rfl⟩, ⟨rfl, rfl⟩, ⟨rfl, rfl⟩, ⟨rfl, rfl⟩, Or.inl rfl⟩ ⟨rfl, rfl⟩ ⟨rfl, rfl⟩
  ⟨g, hg, hd⟩

/-- C15: a completed epoch on well-shaped arguments leaves
`wOut' = wOut + learningRate · (hiddenActᵀ · dOutput)` and
`wHidden' = wHidden + learningRate · (Xᵀ · dHidden)`, with `hiddenAct`, `dOutput`
and `dHidden` computed from the parameters the epoch started with; `dHidden`
uses the `wOut` from before the update. -/
theorem epoch_weight_updates (mathExp : R → R)
    (sumAxis : Int → Dense R → Except Fault (Dense R)) (lr : R) (x y : Dense R)
    (p q : Params R) (n inp hid out : Nat)
    (hp : p.Shaped n inp hid out) (hx : x.rows = n ∧ x.cols = inp)
    (hy : y.rows = n ∧ y.cols = out)
    (hq : epoch mathExp sumAxis lr x y p = .ok q) :
    ∃ g, gradients mathExp x y p = .ok g ∧
      (q.wOut.rows = hid ∧ q.wOut.cols = out ∧ ∀ j k, j < hid → k < out →
        q.wOut.elem j k = p.wOut.elem j k +
          lr * ∑ i ∈ Finset.range n, g.hiddenLayerActivations.elem i j * g.dOutput.elem i k) ∧
      (q.wHidden.rows = inp ∧ q.wHidden.cols = hid ∧ ∀ m j, m < inp → j < hid →
        q.wHidden.elem m j = p.wHidden.elem m j +
          lr * ∑ i ∈ Finset.range n, x.elem i m * g.dHiddenLayer.elem i j) ∧
      (∀ i j, i < n → j < hid → g.dHiddenLayer.elem i j =
        (∑ k ∈ Finset.range out, g.dOutput.elem i k * p.wOut.elem j k) *
          sigmoidPrime mathExp (g.hiddenLayerActivations.elem i j)) := by
  obtain ⟨g, s1, s2, hg, _, _, _, ⟨rwO, cwO, fwO⟩, ⟨rwH, cwH, fwH⟩, _, _⟩ :=
    epoch_ok_inv mathExp sumAxis lr x y p q n inp hid out hp hx hy hq
  obtain ⟨g', hg', _, _, _, _, ⟨_, _, fdH⟩⟩ := gradients_ok mathExp x y p n inp hid out hp hx hy
  have hgg : g' = g := by
    rw [hg] at hg'
    injection hg' with h
    exact h.symm
  subst hgg
  refine ⟨g', hg, ⟨rwO, cwO, ?_⟩, ⟨rwH, cwH, ?_⟩, ?_⟩
  · intro j k _ _
    rw [fwO]
  · intro m j _ _
    rw [fwH]
  · intro i j _ _
    rw [fdH]

/-- Witness for C15: one epoch with the modelled helper on four `1 × 1`
parameters of entry `1/2` and two samples. -/
theorem epoch_weight_updates_witness :
    ∃ q g, epoch Real.exp sumAlongAxis (1 / 2 : ℝ) (constDense 2 1 (by decide) (by decide) 1)
        (constDense 2 1 (by decide) (by decide) 1) (unitParams (1 / 2 : ℝ)) = .ok q ∧
      gradients Real.exp (constDense 2 1 (by decide) (by decide) 1)
        (constDense 2 1 (by decide) (by decide) 1) (unitParams (1 / 2 : ℝ)) = .ok g ∧
      q.wOut.elem 0 0 = 1 / 2 + 1 / 2 *
        ∑ i ∈ Finset.range 2, g.hiddenLayerActivations.elem i 0 * g.dOutput.elem i 0 :=
  let ⟨_, _, _, q, _, _, _, hq, _⟩ := epoch_ok_of_columnSums Real.exp sumAlongAxis (1 / 2 : ℝ)
    (constDense 2 1 (by decide) (by decide) 1) (constDense 2 1 (by decide) (by decide) 1)
    (unitParams (1 / 2 : ℝ)) 2 1 1 1 sumAlongAxis_columnSums
    ⟨⟨rfl, rfl⟩, ⟨rfl, rfl⟩, ⟨rfl, rfl⟩, ⟨rfl, rfl⟩, Or.inl rfl⟩ ⟨rfl, rfl⟩ ⟨rfl, rfl⟩
  let ⟨g, hg, ⟨_, _, hw⟩, _⟩ := epoch_weight_updates Real.exp sumAlongAxis (1 / 2 : ℝ)
    (constDense 2 1 (by decide) (by decide) 1) (constDense 2 1 (by decide) (by decide) 1)
    (unitParams (1 / 2 : ℝ)) q 2 1 1 1
    ⟨⟨rfl, rfl⟩, ⟨rfl, rfl⟩, ⟨rfl, rfl⟩, ⟨rfl, rfl⟩, Or.inl rfl⟩ ⟨rfl, rfl⟩ ⟨rfl, rfl⟩ hq
  ⟨q, g, hq, hg, hw 0 0 (by decide) (by decide)⟩

/-- C16: with the helper modelled from the specification, an epoch on
well-shaped arguments completes; each helper result is a single row of the
gradient's width, and the bias rows become
`bOut'[0,k] = bOut[0,k] + learningRate · Σ_i dOutput[i,k]` and
`bHidden'[0,j] = bHidden[0,j] + learningRate · Σ_i dHidden[i,j]`, summed over all sample rows. -/
theorem epoch_bias_updates (mathExp : R → R) (lr : R) (x y : Dense R)
    (p : Params R) (n inp hid out : Nat)
    (hp : p.Shaped n inp hid out) (hx : x.rows = n ∧ x.cols = inp)
    (hy : y.rows = n ∧ y.cols = out) :
    ∃ g s1 s2 q, gradients mathExp x y p = .ok g ∧
      sumAlongAxis 0 g.dOutput = .ok s1 ∧ sumAlongAxis 0 g.dHiddenLayer = .ok s2 ∧
      epoch mathExp sumAlongAxis lr x y p = .ok q ∧
      (s1.rows = 1 ∧ s1.cols = g.dOutput.cols) ∧ (s2.rows = 1 ∧ s2.cols = g.dHiddenLayer.cols) ∧
      (q.bOut.rows = 1 ∧ q.bOut.cols = out ∧ ∀ k, k < out →
        q.bOut.elem 0 k = p.bOut.elem 0 k + lr * ∑ i ∈ Finset.range n, g.dOutput.elem i k) ∧
      (q.bHidden.rows = 1 ∧ q.bHidden.cols = hid ∧ ∀ j, j < hid →
        q.bHidden.elem 0 j = p.bHidden.elem 0 j +
          lr * ∑ i ∈ Finset.range n, g.dHiddenLayer.elem i j) := by
  obtain ⟨g, s1, s2, q, hg, h1, h2, hq, ⟨r1, c1, f1⟩, ⟨r2, c2, f2⟩⟩ :=
    epoch_ok_of_columnSums mathExp sumAlongAxis lr x y p n inp hid out sumAlongAxis_columnSums
      hp hx hy
  obtain ⟨g', t1, t2, hg', h1', h2', _, _, _, ⟨rbO, cbO, fbO⟩, ⟨rbH, cbH, fbH⟩⟩ :=
    epoch_ok_inv mathExp sumAlongAxis lr x y p q n inp hid out hp hx hy hq
  have hgg : g' = g := by
    rw [hg] at hg'
    injection hg' with h
    exact h.symm
  subst hgg
  have ht1 : t1 = s1 := by
    rw [h1] at h1'
    injection h1' with h
    exact h.symm
  have ht2 : t2 = s2 := by
    rw [h2] at h2'
    injection h2' with h
    exact h.symm
  subst ht1 ht2
  refine ⟨g', t1, t2, q, hg, h1, h2, hq, ⟨r1, c1⟩, ⟨r2, c2⟩, ⟨rbO, cbO, ?_⟩, ⟨rbH, cbH, ?_⟩⟩
  · intro k hk
    rw [fbO]
    simp only
    rw [f1 k hk]
  · intro j hj
    rw [fbH]
    simp only
    rw [f2 j hj]

/-- Witness for C16: four `1 × 1` parameters of entry `1/2`, two samples. -/
theorem epoch_bias_updates_witness :
    ∃ g q, gradients Real.exp (constDense 2 1 (by decide) (by decide) 1)
        (constDense 2 1 (by decide) (by decide) 1) (unitParams (1 / 2 : ℝ)) = .ok g ∧
      epoch Real.exp sumAlongAxis (1 / 2 : ℝ) (constDense 2 1 (by decide) (by decide) 1)
        (constDense 2 1 (by decide) (by decide) 1) (unitParams (1 / 2 : ℝ)) = .ok q ∧
      q.bOut.elem 0 0 = 1 / 2 + 1 / 2 * ∑ i ∈ Finset.range 2, g.dOutput.elem i 0 :=
  let ⟨g, _, _, q, hg, _, _, hq, _, _, ⟨_, _, hb⟩, _⟩ := epoch_bias_updates Real.exp (1 / 2 : ℝ)
    (constDense 2 1 (by decide) (by decide) 1) (constDense 2 1 (by decide) (by decide) 1)
    (unitParams (1 / 2 : ℝ)) 2 1 1 1
    ⟨⟨rfl, rfl⟩, ⟨rfl, rfl⟩, ⟨rfl, rfl⟩, ⟨rfl, rfl⟩, Or.inl rfl⟩ ⟨rfl, rfl⟩ ⟨rfl, rfl⟩
  ⟨g, q, hg, hq, hb 0 (by decide)⟩

/-- C19: for `X` of shape `n × in`, `Y` of shape `n × out`, parameters of
shapes `in × hid`, `1 × hid`, `hid × out`, `1 × out`, all counts positive, and a
helper that returns an error or a single row of its argument's width: the
forward pass, the error and both gradients are computed without failure, the
epoch never ends in a shape or index panic, and when it completes the four
parameter matrices have the shapes they had. -/
theorem epoch_no_shape_failure (mathExp : R → R)
    (sumAxis : Int → Dense R → Except Fault (Dense R)) (lr : R) (x y : Dense R)
    (p : Params R) (n inp hid out : Nat) (hS : SumAxisSpec sumAxis)
    (_hpos : 0 < n ∧ 0 < inp ∧ 0 < hid ∧ 0 < out)
    (hp : p.Shaped n inp hid out) (hx : x.rows = n ∧ x.cols = inp)
    (hy : y.rows = n ∧ y.cols = out) :
    (∃ g, gradients mathExp x y p = .ok g) ∧
    (∀ pn, epoch mathExp sumAxis lr x y p ≠ .error (.panic pn)) ∧
    (∀ q, epoch mathExp sumAxis lr x y p = .ok q →
      (q.wHidden.rows = inp ∧ q.wHidden.cols = hid) ∧ (q.bHidden.rows = 1 ∧ q.bHidden.cols = hid) ∧
      (q.wOut.rows = hid ∧ q.wOut.cols = out) ∧ (q.bOut.rows = 1 ∧ q.bOut.cols = out)) := by
  obtain ⟨g, hg, _⟩ := gradients_ok mathExp x y p n inp hid out hp hx hy
  refine ⟨⟨g, hg⟩, ?_, ?_⟩
  · intro pn hpn
    rcases epoch_cases mathExp sumAxis lr x y p n inp hid out hS hp hx hy with
      ⟨e, he⟩ | ⟨q, hq, _⟩
    · rw [he] at hpn
      cases hpn
    · rw [hq] at hpn
      cases hpn
  · intro q hq
    rcases epoch_cases mathExp sumAxis lr x y p n inp hid out hS hp hx hy with
      ⟨e, he⟩ | ⟨q', hq', h1, h2, h3, h4, _⟩
    · rw [he] at hq
      cases hq
    · rw [hq'] at hq
      injection hq with hq
      subst hq
      exact ⟨h1, h2, h3, h4⟩

/-- Witness for C19: four `1 × 1` parameters of entry `1/2`, two samples, the modelled helper. -/
theorem epoch_no_shape_failure_witness :
    (∃ g, gradients Real.exp (constDense 2 1 (by decide) (by decide) 1)
        (constDense 2 1 (by decide) (by decide) 1) (unitParams (1 / 2 : ℝ)) = .ok g) ∧
    (∀ pn, epoch Real.exp sumAlongAxis (1 / 2 : ℝ) (constDense 2 1 (by decide) (by decide) 1)
        (constDense 2 1 (by decide) (by decide) 1) (unitParams (1 / 2 : ℝ))
        ≠ .error (.panic pn)) :=
  let h := epoch_no_shape_failure Real.exp sumAlongAxis (1 / 2 : ℝ)
    (constDense 2 1 (by decide) (by decide) 1) (constDense 2 1 (by decide) (by decide) 1)
    (unitParams (1 / 2 : ℝ)) 2 1 1 1 sumAlongAxis_spec
    ⟨by decide, by decide, by decide, by decide⟩
    ⟨⟨rfl, rfl⟩, ⟨rfl, rfl⟩, ⟨rfl, rfl⟩, ⟨rfl, rfl⟩, Or.inl rfl⟩ ⟨rfl, rfl⟩ ⟨rfl, rfl⟩
  ⟨h.1, h.2.1⟩

/-! ## A perfect fit -/

theorem denseSame_trans {a b c : Dense R} (h1 : a.Same b) (h2 : b.Same c) : a.Same c := by
  obtain ⟨r1, c1, e1⟩ := h1
  obtain ⟨r2, c2, e2⟩ := h2
  exact ⟨r1.trans r2, c1.trans c2, fun i j hi hj =>
    (e1 i j hi hj).trans (e2 i j (by omega) (by omega))⟩

theorem paramsSame_trans {p q r : Params R} (h1 : p.Same q) (h2 : q.Same r) : p.Same r :=
  ⟨denseSame_trans h1.1 h2.1, denseSame_trans h1.2.1 h2.2.1, denseSame_trans h1.2.2.1 h2.2.2.1,
    denseSame_trans h1.2.2.2 h2.2.2.2⟩

theorem paramsSame_refl (p : Params R) : p.Same p :=
  ⟨⟨rfl, rfl, fun _ _ _ _ => rfl⟩, ⟨rfl, rfl, fun _ _ _ _ => rfl⟩, ⟨rfl, rfl, fun _ _ _ _ => rfl⟩,
    ⟨rfl, rfl, fun _ _ _ _ => rfl⟩⟩

/-- The forward-pass formula reads the parameters only within their dimensions. -/
theorem outputAt_congr (mathExp : R → R) (x : Dense R) (p q : Params R) (n inp hid out : Nat)
    (hp : p.Shaped n inp hid out) (hx : x.rows = n ∧ x.cols = inp) (hqp : q.Same p)
    (i k : Nat) (hk : k < out) : outputAt mathExp x q i k = outputAt mathExp x p i k := by
  obtain ⟨⟨hwH1, hwH2⟩, ⟨hbH1, hbH2⟩, ⟨hwO1, hwO2⟩, ⟨hbO1, hbO2⟩, _⟩ := hp
  obtain ⟨⟨a1, a2, a3⟩, ⟨b1, b2, b3⟩, ⟨c1, c2, c3⟩, ⟨d1, d2, d3⟩⟩ := hqp
  unfold outputAt
  rw [c1, d3 0 k (by omega) (by omega)]
  congr 2
  apply Finset.sum_congr rfl
  intro j hj
  have hj' : j < p.wOut.rows := Finset.mem_range.mp hj
  rw [c3 j k (by omega) (by omega)]
  congr 1
  unfold hiddenActAt
  rw [b3 0 j (by omega) (by omega)]
  congr 2
  apply Finset.sum_congr rfl
  intro m hm
  have hm' : m < x.cols := Finset.mem_range.mp hm
  rw [a3 m j (by omega) (by omega)]

/-- The output computed by the first half of an epoch is the forward-pass formula. -/
theorem gradients_output_eq (mathExp : R → R) (x y : Dense R) (p : Params R) (g : Gradients R)
    (n inp hid out : Nat) (hp : p.Shaped n inp hid out) (hx : x.rows = n ∧ x.cols = inp)
    (hy : y.rows = n ∧ y.cols = out) (hg : gradients mathExp x y p = .ok g)
    (i k : Nat) (hk : k < out) : g.output.elem i k = outputAt mathExp x p i k := by
  obtain ⟨g', hg', ⟨_, _, fA⟩, ⟨_, _, fO⟩, _⟩ := gradients_ok mathExp x y p n inp hid out hp hx hy
  have hgg : g' = g := by
    rw [hg] at hg'
    injection hg' with h
    exact h.symm
  subst hgg
  rw [fO i k hk]
  unfold outputAt
  rw [hp.2.2.1.1]
  congr 2
  apply Finset.sum_congr rfl
  intro j hj
  rw [fA i j (Finset.mem_range.mp hj)]
  unfold hiddenActAt
  rw [hx.2]

/-- When the target equals the forward-pass output, an epoch with a
column-summing helper completes and changes no entry of the four parameter matrices. -/
theorem epoch_perfectFit (mathExp : R → R)
    (sumAxis : Int → Dense R → Except Fault (Dense R)) (lr : R) (x y : Dense R)
    (p : Params R) (n inp hid out : Nat) (hC : ColumnSums sumAxis)
    (hp : p.Shaped n inp hid out) (hx : x.rows = n ∧ x.cols = inp)
    (hy : y.rows = n ∧ y.cols = out) (hfit : PerfectFit mathExp x y p) :
    ∃ g q, gradients mathExp x y p = .ok g ∧
      (∀ i k, i < n → k < out → g.networkError.elem i k = 0) ∧
      epoch mathExp sumAxis lr x y p = .ok q ∧ q.Shaped n inp hid out ∧ q.Same p := by
  obtain ⟨g, s1, s2, q, hg, h1, h2, hq, ⟨r1, c1, f1⟩, ⟨r2, c2, f2⟩⟩ :=
    epoch_ok_of_columnSums mathExp sumAxis lr x y p n inp hid out hC hp hx hy
  obtain ⟨g', t1, t2, hg', h1', h2', ho, ⟨rwO, cwO, fwO⟩, ⟨rwH, cwH, fwH⟩, ⟨rbO, cbO, fbO⟩,
    ⟨rbH, cbH, fbH⟩⟩ := epoch_ok_inv mathExp sumAxis lr x y p q n inp hid out hp hx hy hq
  have hgg : g' = g := by
    rw [hg] at hg'
    injection hg' with h
    exact h.symm
  subst hgg
  have ht1 : t1 = s1 := by
    rw [h1] at h1'
    injection h1' with h
    exact h.symm
  have ht2 : t2 = s2 := by
    rw [h2] at h2'
    injection h2' with h
    exact h.symm
  subst ht1 ht2
  obtain ⟨g0, hg0, ⟨_, _, _⟩, ⟨rO, cO, _⟩, ⟨_, _, fE⟩, ⟨_, _, fdO⟩, ⟨_, _, fdH⟩⟩ :=
    gradients_ok mathExp x y p n inp hid out hp hx hy
  have hg0g : g0 = g' := by
    rw [hg] at hg0
    injection hg0 with h
    exact h.symm
  subst hg0g
  have hE : ∀ i k, i < n → k < out → g0.networkError.elem i k = 0 := by
    intro i k hi hk
    rw [fE]
    simp only
    rw [gradients_output_eq mathExp x y p g0 n inp hid out hp hx hy hg i k hk,
      hfit i k (by omega) (by omega), sub_self]
  have hdO : ∀ i k, i < n → k < out → g0.dOutput.elem i k = 0 := by
    intro i k hi hk
    rw [fdO]
    simp only
    rw [hE i k hi hk, zero_mul]
  have hdH : ∀ i j, i < n → g0.dHiddenLayer.elem i j = 0 := by
    intro i j hi
    rw [fdH]
    simp only
    rw [Finset.sum_eq_zero (fun k hk => by
      rw [hdO i k hi (Finset.mem_range.mp hk), zero_mul]), zero_mul]
  obtain ⟨⟨hwH1, hwH2⟩, ⟨hbH1, hbH2⟩, ⟨hwO1, hwO2⟩, ⟨hbO1, hbO2⟩, _⟩ := hp
  refine ⟨g0, q, hg, hE, hq, ⟨⟨rwH, cwH⟩, ⟨rbH, cbH⟩, ⟨rwO, cwO⟩, ⟨rbO, cbO⟩,
    Or.inr ⟨by rw [ho]; exact rO, by rw [ho]; exact cO⟩⟩, ?_, ?_, ?_, ?_⟩
  · refine ⟨by omega, by omega, ?_⟩
    intro m j _ _
    rw [fwH]
    simp only
    rw [Finset.sum_eq_zero (fun i hi => by
      rw [hdH i j (Finset.mem_range.mp hi), mul_zero]), mul_zero, add_zero]
  · refine ⟨by omega, by omega, ?_⟩
    intro i j hi hj
    have hi0 : i = 0 := by omega
    subst hi0
    rw [fbH]
    simp only
    rw [f2 j (by omega), Finset.sum_eq_zero (fun i hi => hdH i j (Finset.mem_range.mp hi)),
      mul_zero, add_zero]
  · refine ⟨by omega, by omega, ?_⟩
    intro j k _ hk
    rw [fwO]
    simp only
    rw [Finset.sum_eq_zero (fun i hi => by
      rw [hdO i k (Finset.mem_range.mp hi) (by omega), mul_zero]), mul_zero, add_zero]
  · refine ⟨by omega, by omega, ?_⟩
    intro i k hi hk
    have hi0 : i = 0 := by omega
    subst hi0
    rw [fbO]
    simp only
    rw [f1 k (by omega), Finset.sum_eq_zero (fun i hi =>
      hdO i k (Finset.mem_range.mp hi) (by omega)), mul_zero, add_zero]

theorem epochs_perfectFit (mathExp : R → R)
    (sumAxis : Int → Dense R → Except Fault (Dense R)) (lr : R) (x y : Dense R)
    (p : Params R) (n inp hid out : Nat) (hC : ColumnSums sumAxis)
    (hp : p.Shaped n inp hid out) (hx : x.rows = n ∧ x.cols = inp)
    (hy : y.rows = n ∧ y.cols = out) (hfit : PerfectFit mathExp x y p) (k : Nat) :
    ∀ p' : Params R, p'.Shaped n inp hid out → p'.Same p →
      ∃ q, epochs mathExp sumAxis lr x y k p' = .ok q ∧ q.Same p := by
  induction k with
  | zero => intro p' _ hs; exact ⟨p', rfl, hs⟩
  | succ k ih =>
    intro p' hp' hs
    have hfit' : PerfectFit mathExp x y p' := by
      intro i j hi hj
      rw [hfit i j hi hj, outputAt_congr mathExp x p p' n inp hid out hp hx hs i j (by omega)]
    obtain ⟨g, q, _, _, hq, hqs, hqp⟩ :=
      epoch_perfectFit mathExp sumAxis lr x y p' n inp hid out hC hp' hx hy hfit'
    obtain ⟨q', hq', hs'⟩ := ih q hqs (paramsSame_trans hqp hs)
    exact ⟨q', by simp [epochs, hq, hq'], hs'⟩

/-- C18: for well-shaped `X`, any parameters and any learning rate, with a
column-summing helper: when `Y` equals the forward-pass output of the
parameters, the network error of the epoch is the zero matrix, one epoch
leaves `wHidden`, `bHidden`, `wOut` and `bOut` with the same entries, and so
does any number of epochs. -/
theorem perfect_fit_is_fixed_point (mathExp : R → R)
    (sumAxis : Int → Dense R → Except Fault (Dense R)) (lr : R) (x y : Dense R)
    (p : Params R) (n inp hid out : Nat) (hC : ColumnSums sumAxis)
    (hp : p.Shaped n inp hid out) (hx : x.rows = n ∧ x.cols = inp)
    (hy : y.rows = n ∧ y.cols = out) (hfit : PerfectFit mathExp x y p) :
    (∃ g, gradients mathExp x y p = .ok g ∧
      ∀ i k, i < n → k < out → g.networkError.elem i k = 0) ∧
    (∃ q, epoch mathExp sumAxis lr x y p = .ok q ∧ q.Same p) ∧
    (∀ k, ∃ q, epochs mathExp sumAxis lr x y k p = .ok q ∧ q.Same p) := by
  obtain ⟨g, q, hg, hE, hq, _, hqp⟩ :=
    epoch_perfectFit mathExp sumAxis lr x y p n inp hid out hC hp hx hy hfit
  exact ⟨⟨g, hg, hE⟩, ⟨q, hq, hqp⟩, fun k =>
    epochs_perfectFit mathExp sumAxis lr x y p n inp hid out hC hp hx hy hfit k p hp
      (paramsSame_refl p)⟩

/-- Witness for C18: the target built from the forward pass of four `1 × 1`
parameters of entry `1/2` on two samples, three epochs with the modelled helper. -/
theorem perfect_fit_is_fixed_point_witness :
    ∃ q, epochs Real.exp sumAlongAxis (1 / 3 : ℝ) (constDense 2 1 (by decide) (by decide) 1)
        (fittedTarget Real.exp (constDense 2 1 (by decide) (by decide) 1)
          (unitParams (1 / 2 : ℝ)) 2 1 (by decide) (by decide))
        3 (unitParams (1 / 2 : ℝ)) = .ok q ∧ q.Same (unitParams (1 / 2 : ℝ)) :=
  (perfect_fit_is_fixed_point Real.exp sumAlongAxis (1 / 3 : ℝ)
    (constDense 2 1 (by decide) (by decide) 1)
    (fittedTarget Real.exp (constDense 2 1 (by decide) (by decide) 1)
      (unitParams (1 / 2 : ℝ)) 2 1 (by decide) (by decide))
    (unitParams (1 / 2 : ℝ)) 2 1 1 1 sumAlongAxis_columnSums
    ⟨⟨rfl, rfl⟩, ⟨rfl, rfl⟩, ⟨rfl, rfl⟩, ⟨rfl, rfl⟩, Or.inl rfl⟩ ⟨rfl, rfl⟩ ⟨rfl, rfl⟩
    (fun _ _ _ _ => rfl)).2.2 3

/-! ## What a successful `train` call leaves behind -/

end Backprop
